import Mathlib

/-!
Verification development for the GraphRAG ETF-analysis pipeline.

This file gives a shallow embedding, in Lean, of the core question-answering
pipeline of the repository (preprocessor, entity grounder, intent classifier,
parameter fulfiller, Cypher executor, LLM synthesizer, pipeline coordinator)
and proves or refutes the stated behavioural claims about it.

External effects are modelled as explicit oracle functions:
the graph store is a function from query text and parameters to rows
(or a failure), and the language model is a function from prompt to text
(or a failure).  The executor additionally returns the list of calls it
made to the graph client, so that claims of the form "no graph call is
made" are directly statable.  Wall-clock durations (`execution_time_ms`,
per-stage timing) are not modelled; cache timestamps are modelled by an
explicit `now : ℚ` parameter per request.  Python floats are modelled as
exact rationals.
-/

set_option maxRecDepth 4000

namespace GraphRAG

/- The Batteries rational operations are `@[irreducible]`, which blocks
`decide`/`rfl` evaluation of the concrete pipeline runs below; restore
definitional transparency for them within this development. -/
attribute [local semireducible] Rat.mul Rat.add Rat.sub Rat.inv Rat.ofScientific

/-! ## Character and string utilities

Python-level string operations used by the source (`.upper()`, `.lower()`,
`.strip()`, `.split()`, substring tests, `re` scans) are embedded as
executable functions on `List Char`.  Inputs are assumed ASCII: `str.upper`
and `re` word/space classes are modelled on the ASCII range only.
-/

/-- Python whitespace class `\s` (ASCII part), also used by `str.strip`
and `str.split`. -/
def pyIsSpace (c : Char) : Bool :=
  c = ' ' || c = '\t' || c = '\n' || c = '\x0d' || c = '\x0b' || c = '\x0c'

/-- Python word-character class `\w` on ASCII: letters, digits, underscore. -/
def pyIsWord (c : Char) : Bool :=
  ('a' ≤ c && c ≤ 'z') || ('A' ≤ c && c ≤ 'Z') || ('0' ≤ c && c ≤ '9') || c = '_'

/-- ASCII decimal digit test (`\d`). -/
def pyIsDigit (c : Char) : Bool :=
  '0' ≤ c && c ≤ '9'

/-- ASCII uppercase letter test (`[A-Z]`). -/
def pyIsUpperAlpha (c : Char) : Bool :=
  'A' ≤ c && c ≤ 'Z'

/-- `str.upper` on ASCII. -/
def pyUpperChars (l : List Char) : List Char :=
  l.map Char.toUpper

/-- `str.lower` on ASCII. -/
def pyLowerChars (l : List Char) : List Char :=
  l.map Char.toLower

/-- Does `l` start with `pat`? -/
def charsHasPre : List Char → List Char → Bool
  | [], _ => true
  | _ :: _, [] => false
  | a :: as, b :: bs => a = b && charsHasPre as bs

/-- Is `pat` a contiguous substring of `l` (Python `pat in l`)? -/
def charsHasSub (pat : List Char) : List Char → Bool
  | [] => pat.isEmpty
  | c :: rest => charsHasPre pat (c :: rest) || charsHasSub pat rest

/-- Python `pat in s` on strings. -/
def strHasSub (s pat : String) : Bool :=
  charsHasSub pat.data s.data

/-- Python `s.startswith(pre)`. -/
def strStarts (s pre : String) : Bool :=
  charsHasPre pre.data s.data

/-- `str.strip()` : drop leading and trailing whitespace. -/
def charsStrip (l : List Char) : List Char :=
  ((l.dropWhile pyIsSpace).reverse.dropWhile pyIsSpace).reverse

/-- `str.strip()` on `String`. -/
def strStrip (s : String) : String :=
  String.mk (charsStrip s.data)

/-- Worker for `str.split()`: `cur` holds the current word reversed. -/
def splitWsAux (cur : List Char) : List Char → List (List Char)
  | [] => if cur.isEmpty then [] else [cur.reverse]
  | c :: rest =>
    if pyIsSpace c then
      if cur.isEmpty then splitWsAux [] rest
      else cur.reverse :: splitWsAux [] rest
    else splitWsAux (c :: cur) rest

/-- `str.split()` with no argument: split on whitespace runs,
discarding empty pieces. -/
def splitWsChars (l : List Char) : List (List Char) :=
  splitWsAux [] l

/-- Number of whitespace-separated words of a string (`len(s.split())`). -/
def wordsCount (s : String) : ℕ :=
  (splitWsChars s.data).length

/-- Worker for whitespace collapsing; `prevSpace` records whether the
previous character was whitespace. -/
def collapseWsAux (prevSpace : Bool) : List Char → List Char
  | [] => []
  | c :: rest =>
    if pyIsSpace c then
      if prevSpace then collapseWsAux true rest
      else ' ' :: collapseWsAux true rest
    else c :: collapseWsAux false rest

/-- Replace each maximal whitespace run by a single blank
(`re.sub(r"\s+", " ", s)`). -/
def collapseWs (l : List Char) : List Char :=
  collapseWsAux false l

/-- Lexicographic comparison of char lists by code point,
the ordering Python `sorted` uses on strings. -/
def charsLeB : List Char → List Char → Bool
  | [], _ => true
  | _ :: _, [] => false
  | a :: as, b :: bs =>
    if a.val < b.val then true
    else if b.val < a.val then false
    else charsLeB as bs

/-- Python `s1 <= s2` on strings. -/
def strLeB (a b : String) : Bool :=
  charsLeB a.data b.data

/-- Insertion sort with a boolean "less or equal", modelling Python
`sorted` (stable). -/
def insertLe {α : Type} (le : α → α → Bool) (x : α) : List α → List α
  | [] => [x]
  | y :: ys => if le x y then x :: y :: ys else y :: insertLe le x ys

/-- Sort a list with a boolean "less or equal" (Python `sorted`). -/
def sortByLe {α : Type} (le : α → α → Bool) : List α → List α
  | [] => []
  | x :: xs => insertLe le x (sortByLe le xs)

/-- `", ".join(l)` style joining. -/
def joinSep (sep : String) : List String → String
  | [] => ""
  | [x] => x
  | x :: xs => x ++ sep ++ joinSep sep xs

/-! ## Decimal numerals and float formatting

Python `float("...")` on the decimal numerals produced by the regex groups
is modelled exactly as a rational; `"%.Nf"`-style formatting rounds the
rational half-to-even at `N` decimals (Python formats the nearest binary
double, which agrees except on ties invisible to the claims below).
-/

/-- Value of a list of ASCII digits read as a decimal natural. -/
def digitsToNat (l : List Char) : ℕ :=
  l.foldl (fun acc c => 10 * acc + (c.toNat - 48)) 0

/-- Exact rational value of a numeral `digits` or `digits.digits`
(the strings matched by the group `\d+(?:\.\d+)?`). -/
def ratOfNumeral (l : List Char) : ℚ :=
  let intPart := l.takeWhile (fun c => c ≠ '.')
  let rest := l.drop intPart.length
  match rest with
  | '.' :: fracPart =>
      (digitsToNat intPart : ℚ) + (digitsToNat fracPart : ℚ) / (10 : ℚ) ^ fracPart.length
  | _ => (digitsToNat intPart : ℚ)

/-- Single decimal digit character for `k % 10`. -/
def digitChar (k : ℕ) : Char :=
  Char.ofNat (48 + k % 10)

/-- Fueled decimal rendering of a natural number, most significant digit
first. -/
def natToCharsAux : ℕ → ℕ → List Char → List Char
  | 0, _, acc => acc
  | fuel + 1, n, acc =>
    if n < 10 then digitChar n :: acc
    else natToCharsAux fuel (n / 10) (digitChar (n % 10) :: acc)

/-- Decimal rendering of a natural number (`str(n)`). -/
def natToChars (n : ℕ) : List Char :=
  natToCharsAux (n + 1) n []

/-- Decimal rendering of an integer (`str(n)` / `f"{n}"`). -/
def intToChars (n : ℤ) : List Char :=
  if n < 0 then '-' :: natToChars n.natAbs else natToChars n.natAbs

/-- `str(n)` for integers as a `String`. -/
def intToStr (n : ℤ) : String :=
  String.mk (intToChars n)

/-- Round a rational half-to-even to an integer. -/
def roundHE (q : ℚ) : ℤ :=
  let f : ℤ := ⌊q⌋
  let r : ℚ := q - (f : ℚ)
  if r < 1 / 2 then f
  else if 1 / 2 < r then f + 1
  else if f % 2 = 0 then f else f + 1

/-- Left-pad a digit list with zeros to length at least `n`. -/
def padZeros (n : ℕ) (l : List Char) : List Char :=
  List.replicate (n - l.length) '0' ++ l

/-- Python fixed-point formatting `f"{q:.precf}"`. -/
def fmtFixed (prec : ℕ) (q : ℚ) : String :=
  let scaled : ℤ := roundHE (q * (10 : ℚ) ^ prec)
  let sign : List Char := if scaled < 0 then ['-'] else []
  let mag : List Char := padZeros (prec + 1) (natToChars scaled.natAbs)
  if prec = 0 then String.mk (sign ++ mag)
  else
    String.mk (sign ++ mag.take (mag.length - prec) ++ '.' :: mag.drop (mag.length - prec))

/-- Does a string contain an ASCII decimal digit (`re.search(r"\d", s)`)? -/
def hasDigitStr (s : String) : Bool :=
  s.data.any pyIsDigit

/-! ## Dynamic values

Rows returned by the graph client, template parameters and entity
properties are Python dicts/lists/primitives; they are embedded as the
inductive `Val`.  Python `int` and `float` are kept apart (as `ℤ` and `ℚ`)
because the source converts between them explicitly. -/

/-- A Python runtime value as it appears in rows, parameters and
properties. -/
inductive Val : Type where
  | vStr : String → Val
  | vInt : ℤ → Val
  | vNum : ℚ → Val
  | vNone : Val
  | vBool : Bool → Val
  | vList : List Val → Val
  | vMap : List (String × Val) → Val

/-- A row returned by the graph client: a mapping from column alias to
value, in column order. -/
abbrev Row := List (String × Val)

/-- A parameter map handed to the executor. -/
abbrev Params := List (String × Val)

/-- First-match association lookup (`d.get(k)`; the dicts built by the
source have distinct keys). -/
def assocGet (l : List (String × Val)) (k : String) : Option Val :=
  match l.find? (fun p => p.1 = k) with
  | some p => some p.2
  | none => none

/-- `d.get(k, default)`. -/
def assocGetD (l : List (String × Val)) (k : String) (d : Val) : Val :=
  (assocGet l k).getD d

/-- Is a parameter key present (`k in d`)? -/
def assocHas (l : List (String × Val)) (k : String) : Bool :=
  l.any (fun p => p.1 = k)

/-- Python `isinstance(v, (int, float))` (`bool` is also an `int` in
Python, hence included). -/
def isNumericVal : Val → Bool
  | Val.vInt _ => true
  | Val.vNum _ => true
  | Val.vBool _ => true
  | _ => false

/-- Numeric content of a value (`bool` counts as 0/1 as in Python). -/
def numOfVal : Val → ℚ
  | Val.vInt n => (n : ℚ)
  | Val.vNum q => q
  | Val.vBool b => if b then 1 else 0
  | _ => 0

/-- Python `int(v)` for the values the fulfiller can meet: truncation for
numbers, decimal parse for strings; anything else fails. -/
def pyIntOfVal : Val → Except String ℤ
  | Val.vInt n => Except.ok n
  | Val.vNum q => Except.ok (q.num / (q.den : ℤ))
  | Val.vBool b => Except.ok (if b then 1 else 0)
  | Val.vStr s =>
    let l := charsStrip s.data
    match l with
    | '-' :: ds => if ds ≠ [] && ds.all pyIsDigit then Except.ok (-(digitsToNat ds : ℤ))
                   else Except.error "invalid literal for int()"
    | ds => if ds ≠ [] && ds.all pyIsDigit then Except.ok ((digitsToNat ds : ℤ))
            else Except.error "invalid literal for int()"
  | _ => Except.error "int() argument"

/-- Python `str(v)` for the primitive values that reach string
interpolation in the source. -/
def pyStrOfVal : Val → String
  | Val.vStr s => s
  | Val.vInt n => intToStr n
  | Val.vNum q => fmtFixed 6 q
  | Val.vBool b => if b then "True" else "False"
  | Val.vNone => "None"
  | Val.vList _ => "[...]"
  | Val.vMap _ => "\x7b...\x7d"

/-! ## Template catalogue (`templates/cypher_queries.py`)

The nine Cypher templates, with their query text reproduced verbatim from
the source, and the security predicates `has_limit` / `is_read_only`. -/

def etf_exposure_to_company_query : String :=
  "\n            MATCH (e:ETF \x7bticker: $ticker\x7d)-[h:HOLDS]->(c:Company \x7bsymbol: $symbol\x7d)\n            RETURN e.ticker as etf_ticker, e.name as etf_name,\n                   c.symbol, c.name as company_name, \n                   round(h.weight * 100, 3) as exposure_percent\n            ORDER BY h.weight DESC\n            LIMIT 50\n        "

def etf_overlap_weighted_query : String :=
  "\n            MATCH (e1:ETF \x7bticker: $ticker1\x7d)-[h1:HOLDS]->(c:Company)<-[h2:HOLDS]-(e2:ETF \x7bticker: $ticker2\x7d)\n            RETURN c.symbol, c.name as company_name, \n                   round(h1.weight * 100, 3) as percent_etf1,\n                   round(h2.weight * 100, 3) as percent_etf2,\n                   round((h1.weight + h2.weight) * 100, 3) as combined_percent,\n                   round(abs(h1.weight - h2.weight) * 100, 3) as difference_percent\n            ORDER BY (h1.weight + h2.weight) DESC\n            LIMIT 50\n        "

def etf_overlap_jaccard_query : String :=
  "\n            MATCH (e1:ETF \x7bticker: $ticker1\x7d)-[:HOLDS]->(c:Company)<-[:HOLDS]-(e2:ETF \x7bticker: $ticker2\x7d)\n            WITH count(c) as intersection\n            MATCH (e1:ETF \x7bticker: $ticker1\x7d)-[:HOLDS]->(c1:Company)\n            WITH intersection, count(c1) as count1\n            MATCH (e2:ETF \x7bticker: $ticker2\x7d)-[:HOLDS]->(c2:Company)  \n            WITH intersection, count1, count(c2) as count2\n            RETURN intersection, count1, count2, \n                   toFloat(intersection) / (count1 + count2 - intersection) as jaccard_similarity,\n                   toFloat(intersection) / count1 as overlap_ratio_etf1,\n                   toFloat(intersection) / count2 as overlap_ratio_etf2,\n                   round(toFloat(intersection) / (count1 + count2 - intersection) * 100, 2) as jaccard_percent\n            LIMIT 1\n        "

def sector_exposure_query : String :=
  "\n            MATCH (e:ETF \x7bticker: $ticker\x7d)-[h:HOLDS]->(c:Company)-[:IN_SECTOR]->(s:Sector)\n            WITH s.name as sector, \n                 count(c) as company_count,\n                 sum(h.weight) as total_weight,\n                 avg(h.weight) as avg_weight,\n                 max(h.weight) as max_weight\n            RETURN sector, \n                   company_count,\n                   round(total_weight * 100, 2) as exposure_percent,\n                   round(avg_weight * 100, 3) as avg_exposure_percent,\n                   round(max_weight * 100, 3) as max_exposure_percent\n            ORDER BY total_weight DESC\n            LIMIT 50\n        "

def etfs_by_sector_threshold_query : String :=
  "\n            // Optimized query: start from sector to use index efficiently\n            MATCH (s:Sector)\n            WHERE s.name = $sector OR s.name CONTAINS $sector\n            WITH s\n            MATCH (s)<-[:IN_SECTOR]-(c:Company)<-[h:HOLDS]-(e:ETF)\n            WITH e, sum(h.weight) as sector_exposure\n            WHERE sector_exposure >= $threshold\n            RETURN e.ticker, e.name as etf_name,\n                   round(sector_exposure * 100, 2) as exposure_percent\n            ORDER BY sector_exposure DESC\n            LIMIT 50\n        "

def top_holdings_subgraph_query : String :=
  "\n            MATCH (e:ETF \x7bticker: $ticker\x7d)-[h:HOLDS]->(c:Company)-[:IN_SECTOR]->(s:Sector)\n            RETURN c.symbol, c.name as company_name, s.name as sector,\n                   round(h.weight * 100, 3) as exposure_percent\n            ORDER BY h.weight DESC\n            LIMIT $top_n\n        "

def company_rankings_query : String :=
  "\n            MATCH (c:Company \x7bsymbol: $symbol\x7d)<-[h:HOLDS]-(e:ETF)\n            WHERE ($etf_tickers IS NULL OR e.ticker IN $etf_tickers)\n            RETURN e.ticker, e.name as etf_name, \n                   round(h.weight * 100, 3) as exposure_percent\n            ORDER BY h.weight DESC\n            LIMIT 50\n        "

def general_llm_query : String :=
  ""

def comprehensive_data_query : String :=
  "\n            // Get all ETF holdings with comprehensive data\n            MATCH (e:ETF)-[h:HOLDS]->(c:Company)-[:IN_SECTOR]->(s:Sector)\n            WITH e, c, s, h \n            ORDER BY e.ticker, h.weight DESC\n            WITH e, \n                 collect(\x7b\n                     symbol: c.symbol,\n                     name: c.name,\n                     sector: s.name,\n                     weight: h.weight,\n                     shares: h.shares,\n                     exposure_percent: round(h.weight * 100, 3)\n                 \x7d)[0..50] as holdings,\n                 count(c) as total_holdings,\n                 sum(h.weight) as total_weight\n            \n            // Get sector distributions\n            MATCH (e)-[h2:HOLDS]->(c2:Company)-[:IN_SECTOR]->(s2:Sector)\n            WITH e, holdings, total_holdings, total_weight,\n                 s2.name as sector,\n                 sum(h2.weight) as sector_weight,\n                 count(c2) as sector_count\n            WITH e, holdings, total_holdings, total_weight,\n                 collect(\x7b\n                     sector: sector,\n                     weight: round(sector_weight * 100, 2),\n                     count: sector_count\n                 \x7d) as sectors\n            \n            RETURN e.ticker as etf_ticker, \n                   e.name as etf_name,\n                   total_holdings,\n                   holdings,\n                   sectors\n            ORDER BY e.ticker\n            LIMIT 10\n        "

/-- A catalogue entry: query text, required parameter names, description
(`class CypherTemplate`). -/
structure CypherTemplate where
  query : String
  required_params : List String
  description : String

/-- `CypherTemplate.validate_params`: the required parameters missing from
the supplied map, in declaration order. -/
def CypherTemplate.validate_params (t : CypherTemplate) (params : Params) : List String :=
  t.required_params.filter (fun p => !assocHas params p)

/-- `CypherTemplate.has_limit`: the query text uppercased contains
"LIMIT". -/
def CypherTemplate.has_limit (t : CypherTemplate) : Bool :=
  charsHasSub "LIMIT".data (pyUpperChars t.query.data)

/-- The write keywords that `is_read_only` rejects. -/
def write_operations : List String :=
  ["CREATE", "DELETE", "SET", "MERGE", "DROP", "REMOVE"]

/-- `CypherTemplate.is_read_only`: no write keyword occurs in the
uppercased query text. -/
def CypherTemplate.is_read_only (t : CypherTemplate) : Bool :=
  !write_operations.any (fun op => charsHasSub op.data (pyUpperChars t.query.data))

/-- The `etf_exposure_to_company` catalogue entry. -/
def etf_exposure_to_company_template : CypherTemplate :=
  ⟨etf_exposure_to_company_query, ["ticker", "symbol"], "Find ETF exposure to specific company"⟩

/-- The `etf_overlap_weighted` catalogue entry. -/
def etf_overlap_weighted_template : CypherTemplate :=
  ⟨etf_overlap_weighted_query, ["ticker1", "ticker2"], "Calculate weighted overlap between two ETFs"⟩

/-- The `etf_overlap_jaccard` catalogue entry. -/
def etf_overlap_jaccard_template : CypherTemplate :=
  ⟨etf_overlap_jaccard_query, ["ticker1", "ticker2"], "Calculate Jaccard overlap coefficient between ETFs"⟩

/-- The `sector_exposure` catalogue entry. -/
def sector_exposure_template : CypherTemplate :=
  ⟨sector_exposure_query, ["ticker"], "Show sector distribution for ETF"⟩

/-- The `etfs_by_sector_threshold` catalogue entry. -/
def etfs_by_sector_threshold_template : CypherTemplate :=
  ⟨etfs_by_sector_threshold_query, ["sector", "threshold"], "Find ETFs with minimum sector exposure"⟩

/-- The `top_holdings_subgraph` catalogue entry. -/
def top_holdings_subgraph_template : CypherTemplate :=
  ⟨top_holdings_subgraph_query, ["ticker", "top_n"], "Get top holdings with weights and sectors"⟩

/-- The `company_rankings` catalogue entry. -/
def company_rankings_template : CypherTemplate :=
  ⟨company_rankings_query, ["symbol"],
   "Rank ETFs by exposure to specific company (optionally filtered by ETF list)"⟩

/-- The `general_llm` catalogue entry: the query text is empty. -/
def general_llm_template : CypherTemplate :=
  ⟨general_llm_query, [], "Handle general questions with LLM knowledge"⟩

/-- The `comprehensive_data` catalogue entry. -/
def comprehensive_data_template : CypherTemplate :=
  ⟨comprehensive_data_query, [], "Get comprehensive ETF holdings and sector data for all ETFs"⟩

/-- The catalogue (`CYPHER_TEMPLATES`), as a key-indexed lookup returning
the entry for a known intent key and `none` otherwise. -/
def CYPHER_TEMPLATES (key : String) : Option CypherTemplate :=
  if key = "etf_exposure_to_company" then some etf_exposure_to_company_template
  else if key = "etf_overlap_weighted" then some etf_overlap_weighted_template
  else if key = "etf_overlap_jaccard" then some etf_overlap_jaccard_template
  else if key = "sector_exposure" then some sector_exposure_template
  else if key = "etfs_by_sector_threshold" then some etfs_by_sector_threshold_template
  else if key = "top_holdings_subgraph" then some top_holdings_subgraph_template
  else if key = "company_rankings" then some company_rankings_template
  else if key = "general_llm" then some general_llm_template
  else if key = "comprehensive_data" then some comprehensive_data_template
  else none

/-- `list_available_intents()`: the catalogue keys in declaration order. -/
def list_available_intents : List String :=
  ["etf_exposure_to_company", "etf_overlap_weighted", "etf_overlap_jaccard",
   "sector_exposure", "etfs_by_sector_threshold", "top_holdings_subgraph",
   "company_rankings", "general_llm", "comprehensive_data"]

/-! ## Query executor (`cypher_executor.py`) -/

/-- The denylisted dangerous-procedure prefixes checked at execution time
(`dangerous_patterns` in `_validate_template_security`). -/
def dangerous_patterns : List String :=
  ["CALL APOC", "CALL DB.", "LOAD CSV", "PERIODIC COMMIT",
   "CALL \x7b CREATE", "CALL \x7b MERGE", "CALL \x7b DELETE"]

/-- The first dangerous pattern occurring in the uppercased query text, if
any (the loop in `_validate_template_security`). -/
def dangerousHit (query : String) : Option String :=
  dangerous_patterns.find? (fun p => charsHasSub p.data (pyUpperChars query.data))

/-- Failures the executor can raise or propagate. -/
inductive ExecError : Type where
  | unknownIntent : String → ExecError
  | securityError : String → ExecError
  | missingParams : List String → ExecError
  | graphError : String → ExecError

/-- The result record built by the executor (`CypherResult`).  The
wall-clock `execution_time_ms` field is not modelled.  The pydantic field
`is_comprehensive_fallback : Optional[bool]` is modelled as a `Bool`
(`None` and `False` behave identically in the only test the source
performs on it). -/
structure CypherResult where
  query : String
  parameters : Params
  rows : List Row
  node_count : Option ℕ := none
  edge_count : Option ℕ := none
  is_comprehensive_fallback : Bool := false

/-- Insert a string into a deduplicating accumulator (Python `set.add`;
only the cardinality of the set is consumed). -/
def insertUnique (x : String) (l : List String) : List String :=
  if x ∈ l then l else x :: l

/-- Node keys scanned by `_count_graph_elements` for one row: the `e`,
`c`, `s` aliases tagged with the node label and its identifying
property. -/
def rowNodeTags (row : Row) : List String :=
  (match assocGet row "e" with
   | some (Val.vMap m) => ["ETF:" ++ pyStrOfVal (assocGetD m "ticker" (Val.vStr ""))]
   | some _ => ["ETF:"]
   | none => []) ++
  (match assocGet row "c" with
   | some (Val.vMap m) => ["Company:" ++ pyStrOfVal (assocGetD m "symbol" (Val.vStr ""))]
   | some _ => ["Company:"]
   | none => []) ++
  (match assocGet row "s" with
   | some (Val.vMap m) => ["Sector:" ++ pyStrOfVal (assocGetD m "name" (Val.vStr ""))]
   | some _ => ["Sector:"]
   | none => [])

/-- `_count_graph_elements`: unique node count and HOLDS-edge count, only
for the `top_holdings_subgraph` intent with non-empty rows. -/
def count_graph_elements (rows : List Row) (intent : String) : Option ℕ × Option ℕ :=
  if intent ≠ "top_holdings_subgraph" || rows.isEmpty then (none, none)
  else
    let nodes := rows.foldl (fun acc row => (rowNodeTags row).foldl (fun a t => insertUnique t a) acc) []
    let edges := rows.foldl (fun acc row => acc + (if assocHas row "h" then 1 else 0)) 0
    (some nodes.length, some edges)

/-- The graph client (`Neo4jService.execute_query`): query text and bound
parameters to rows, or a transport failure. -/
abbrev GraphOracle := String → Params → Except String (List Row)

/-- `CypherExecutor.execute`, returning both the list of calls made to the
graph client (query text and parameter map, in order) and the outcome.
The security validation and the parameter validation happen before any
graph call; validation failures therefore produce an empty call list. -/
def executeRun (graph : GraphOracle) (intent : String) (parameters : Params) :
    List (String × Params) × Except ExecError CypherResult :=
  match CYPHER_TEMPLATES intent with
  | none => ([], Except.error (ExecError.unknownIntent ("Unknown intent: " ++ intent)))
  | some t =>
    if t.has_limit = false then
      ([], Except.error (ExecError.securityError "Query must have LIMIT clause"))
    else if t.is_read_only = false then
      ([], Except.error (ExecError.securityError "Only read-only queries are allowed"))
    else
      match dangerousHit t.query with
      | some p =>
        ([], Except.error (ExecError.securityError ("Dangerous pattern detected: " ++ p)))
      | none =>
        match t.validate_params parameters with
        | [] =>
          match graph t.query parameters with
          | Except.error e => ([(t.query, parameters)], Except.error (ExecError.graphError e))
          | Except.ok rows =>
            let counts := count_graph_elements rows intent
            ([(t.query, parameters)],
             Except.ok { query := strStrip t.query, parameters := parameters, rows := rows,
                         node_count := counts.1, edge_count := counts.2,
                         is_comprehensive_fallback := false })
        | missing => ([], Except.error (ExecError.missingParams missing))

/-! ## Preprocessor (`preprocessor.py`)

The four `re` number patterns and the ticker pattern are embedded as
explicit scanners with the same matching semantics (leftmost,
non-overlapping, greedy; the limited backtracking of these particular
patterns is equational and reproduced directly). -/

/-- Maximal leading digit run and the remainder. -/
def takeDigits (l : List Char) : List Char × List Char :=
  (l.takeWhile pyIsDigit, l.dropWhile pyIsDigit)

/-- Match of `(\d+(?:\.\d+)?)\s*%` anchored at the head of `l`: the
group-1 numeral and the remainder after the match, if any. -/
def pctMatchAt (l : List Char) : Option (List Char × List Char) :=
  let p := takeDigits l
  if p.1.isEmpty then none
  else
    let tryPlain : Option (List Char × List Char) :=
      match p.2.dropWhile pyIsSpace with
      | '%' :: r5 => some (p.1, r5)
      | _ => none
    match p.2 with
    | '.' :: r2 =>
      let f := takeDigits r2
      if f.1.isEmpty then tryPlain
      else
        match f.2.dropWhile pyIsSpace with
        | '%' :: r5 => some (p.1 ++ '.' :: f.1, r5)
        | _ => tryPlain
    | _ => tryPlain

/-- Leftmost non-overlapping scan for the percentage pattern
(`finditer`), collecting group-1 numerals. -/
def pctScan : ℕ → List Char → List (List Char)
  | 0, _ => []
  | _ + 1, [] => []
  | fuel + 1, c :: rest =>
    match pctMatchAt (c :: rest) with
    | some m => m.1 :: pctScan fuel m.2
    | none => pctScan fuel rest

/-- All group-1 numerals of `(\d+(?:\.\d+)?)\s*%` in `s`. -/
def pctTokens (s : List Char) : List (List Char) :=
  pctScan (s.length + 1) s

/-- Match of `0\.\d+` anchored at the head. -/
def decMatchAt : List Char → Option (List Char × List Char)
  | '0' :: '.' :: r =>
    let f := takeDigits r
    if f.1.isEmpty then none else some ('0' :: '.' :: f.1, f.2)
  | _ => none

/-- Leftmost non-overlapping scan for the bare-decimal pattern. -/
def decScan : ℕ → List Char → List (List Char)
  | 0, _ => []
  | _ + 1, [] => []
  | fuel + 1, c :: rest =>
    match decMatchAt (c :: rest) with
    | some m => m.1 :: decScan fuel m.2
    | none => decScan fuel rest

/-- All matches of `0\.\d+` in `s`. -/
def decTokens (s : List Char) : List (List Char) :=
  decScan (s.length + 1) s

/-- The threshold-pattern alternatives, in the order the regex tries
them.  The second entry reproduces the bytes that appear in the source
file (a mis-encoded `≥`). -/
def thrAlts : List (List Char) :=
  [">=".data, "â‰¥".data, "at least".data, "minimum of".data, "more than".data]

/-- Match of `(?:>=|…|more than)\s*(\d+(?:\.\d+)?)\s*%?` anchored at the
head: the numeral group and the remainder after the match. -/
def thrMatchAt (l : List Char) : Option (List Char × List Char) :=
  match thrAlts.find? (fun a => charsHasPre a l) with
  | none => none
  | some alt =>
    let r1 := (l.drop alt.length).dropWhile pyIsSpace
    let p := takeDigits r1
    if p.1.isEmpty then none
    else
      let t :=
        match p.2 with
        | '.' :: rr =>
          let f := takeDigits rr
          if f.1.isEmpty then (p.1, p.2) else (p.1 ++ '.' :: f.1, f.2)
        | _ => (p.1, p.2)
      match t.2.dropWhile pyIsSpace with
      | '%' :: r6 => some (t.1, r6)
      | r5 => some (t.1, r5)

/-- Leftmost non-overlapping scan for the threshold pattern. -/
def thrScan : ℕ → List Char → List (List Char)
  | 0, _ => []
  | _ + 1, [] => []
  | fuel + 1, c :: rest =>
    match thrMatchAt (c :: rest) with
    | some m => m.1 :: thrScan fuel m.2
    | none => thrScan fuel rest

/-- All threshold numerals in `s`. -/
def thrTokens (s : List Char) : List (List Char) :=
  thrScan (s.length + 1) s

/-- The count-pattern trigger words (`top|first|best`), matched
case-insensitively. -/
def countAlts : List (List Char) :=
  ["top".data, "first".data, "best".data]

/-- Case-insensitive prefix test against a lowercase pattern. -/
def charsHasPreCI (pat l : List Char) : Bool :=
  charsHasPre pat (pyLowerChars (l.take pat.length))

/-- Match of `\b(top|first|best)\s+(\d+)\b` (IGNORECASE) anchored at the
head, given the preceding character: the group-2 digits and the
remainder. -/
def countMatchAt (prev : Option Char) (l : List Char) : Option (List Char × List Char) :=
  if (match prev with | some p => pyIsWord p | none => false) then none
  else
    match countAlts.find? (fun a => charsHasPreCI a l) with
    | none => none
    | some alt =>
      let r1 := l.drop alt.length
      let ws := r1.takeWhile pyIsSpace
      if ws.isEmpty then none
      else
        let p := takeDigits (r1.drop ws.length)
        if p.1.isEmpty then none
        else
          match p.2 with
          | [] => some (p.1, [])
          | c :: _ => if pyIsWord c then none else some (p.1, p.2)

/-- Leftmost non-overlapping scan for the count pattern, tracking the
previous character for the word boundary. -/
def countScan : ℕ → Option Char → List Char → List (List Char)
  | 0, _, _ => []
  | _ + 1, _, [] => []
  | fuel + 1, prev, c :: rest =>
    match countMatchAt prev (c :: rest) with
    | some m => m.1 :: countScan fuel (some (m.1.getLastD '0')) m.2
    | none => countScan fuel (some c) rest

/-- All group-2 digit strings of the count pattern in `s`. -/
def countTokens (s : List Char) : List (List Char) :=
  countScan (s.length + 1) none s

/-- The stop-word set filtered out of ticker candidates
(`excluded` in `_extract_tickers`). -/
def excludedTickerWords : List String :=
  ["THE", "AND", "FOR", "ARE", "BUT", "NOT", "YOU", "ALL",
   "CAN", "HER", "WAS", "ONE", "OUR", "HAD", "BUT", "HIS",
   "HAS", "WHO", "WITH", "FROM", "THEY", "KNOW", "WANT",
   "BEEN", "GOOD", "MUCH", "SOME", "TIME", "VERY", "WHEN",
   "COME", "HERE", "HOW", "JUST", "LIKE", "LONG", "MAKE",
   "MANY", "OVER", "SUCH", "TAKE", "THAN", "THEM", "WELL",
   "WHAT", "WHERE"]

/-- Maximal runs of characters satisfying `keep`. -/
def runsAux (keep : Char → Bool) (cur : List Char) : List Char → List (List Char)
  | [] => if cur.isEmpty then [] else [cur.reverse]
  | c :: rest =>
    if keep c then runsAux keep (c :: cur) rest
    else if cur.isEmpty then runsAux keep [] rest
    else cur.reverse :: runsAux keep [] rest

/-- Maximal runs of characters satisfying `keep` in a list. -/
def runsOf (keep : Char → Bool) (l : List Char) : List (List Char) :=
  runsAux keep [] l

/-- `_extract_tickers`: `findall(r"\b[A-Z]\x7b2,5\x7d\b", text.upper())`
minus the stop-word set.  On the uppercased text the pattern matches
exactly the maximal word-character runs that consist solely of 2–5
letters. -/
def extract_tickers (text : String) : List String :=
  let segs := runsOf pyIsWord (pyUpperChars text.data)
  ((segs.filter (fun s => s.all pyIsUpperAlpha && 2 ≤ s.length && s.length ≤ 5)).map
      String.mk).filter (fun t => !excludedTickerWords.any (fun w => w = t))

/-- `_normalize_text`: lowercase, strip, collapse whitespace runs. -/
def normalize_text (text : String) : String :=
  String.mk (collapseWs (charsStrip (pyLowerChars text.data)))

/-- `_tokenize`: replace non-word, non-space characters by blanks, split
on whitespace, keep tokens of length > 1. -/
def tokenize (text : String) : List String :=
  let cleaned := text.data.map (fun c => if pyIsWord c || pyIsSpace c then c else ' ')
  ((splitWsChars cleaned).filter (fun t => t.length > 1)).map String.mk

/-- The `numbers` dictionary built by `_extract_numbers`, with its four
fixed keys as fields. -/
structure ExtractedNumbers where
  percentages : List ℚ
  decimals : List ℚ
  counts : List ℤ
  thresholds : List ℚ

/-- The "divide if it looks like a percentage" rule applied to raw
threshold values. -/
def pyThresholdNormalize (v : ℚ) : ℚ :=
  if v > 1 then v / 100 else v

/-- `_extract_numbers` over the raw text. -/
def extract_numbers (text : String) : ExtractedNumbers :=
  { percentages := (pctTokens text.data).map (fun t => ratOfNumeral t / 100)
    decimals := (decTokens text.data).map ratOfNumeral
    counts := (countTokens text.data).map (fun t => (digitsToNat t : ℤ))
    thresholds := (thrTokens text.data).map (fun t => pyThresholdNormalize (ratOfNumeral t)) }

/-- `PreprocessedText`. -/
structure PreprocessedText where
  normalized_text : String
  extracted_numbers : ExtractedNumbers
  potential_tickers : List String
  tokens : List String
  original_text : String

/-- `Preprocessor.process`. -/
def preprocess (text : String) : PreprocessedText :=
  { normalized_text := normalize_text text
    extracted_numbers := extract_numbers text
    potential_tickers := extract_tickers text
    tokens := tokenize (normalize_text text)
    original_text := text }

/-! ## Entity grounder (`entity_grounder.py`)

The graph lookups the grounder performs are abstracted as oracles: for
the two node queries, the optional property map of the matched node; for
the two sector queries, the list of `(s.name, properties-of-s)` pairs of
the returned rows (each row of `RETURN s` carries the matched sector node
and its `name` property). -/

/-- `EntityType`. -/
inductive EntityType : Type where
  | ETF | COMPANY | SECTOR | PERCENT | COUNT
deriving DecidableEq

/-- The `str` value of an `EntityType` member. -/
def EntityType.value : EntityType → String
  | EntityType.ETF => "ETF"
  | EntityType.COMPANY => "Company"
  | EntityType.SECTOR => "Sector"
  | EntityType.PERCENT => "Percent"
  | EntityType.COUNT => "Count"

/-- `GroundedEntity`.  The pydantic constraint `0 ≤ confidence ≤ 1` is a
construction-time check; every confidence built below is a literal in
range. -/
structure GroundedEntity where
  name : String
  type : EntityType
  confidence : ℚ
  properties : List (String × Val)

/-- The graph lookups used by the grounder. -/
structure GroundOracles where
  etfNode : String → Option (List (String × Val))
  companyNode : String → Option (List (String × Val))
  sectorDirect : String → List (String × List (String × Val))
  sectorAlias : String → List (String × List (String × Val))

/-- `_ground_etfs`. -/
def ground_etfs (o : GroundOracles) (potential_tickers : List String) : List GroundedEntity :=
  potential_tickers.filterMap (fun t =>
    (o.etfNode t).map (fun props =>
      { name := t, type := EntityType.ETF, confidence := 1, properties := props }))

/-- `_ground_companies`. -/
def ground_companies (o : GroundOracles) (potential_tickers : List String) : List GroundedEntity :=
  potential_tickers.filterMap (fun t =>
    (o.companyNode t).map (fun props =>
      { name := t, type := EntityType.COMPANY, confidence := 1, properties := props }))

/-- The deduplication loop at the end of `_ground_sectors`: keep the
first entity seen per sector name; non-sector entities pass through. -/
def dedupSectorsAux (seen : List String) : List GroundedEntity → List GroundedEntity
  | [] => []
  | e :: rest =>
    if e.type = EntityType.SECTOR then
      if seen.any (fun n => n = e.name) then dedupSectorsAux seen rest
      else e :: dedupSectorsAux (e.name :: seen) rest
    else e :: dedupSectorsAux seen rest

/-- The direct-match pass of `_ground_sectors`: for each token of length
at least 3, the sectors whose name matches case-insensitively, at
confidence 0.8, in token order. -/
def sectorDirectPass (o : GroundOracles) (tokens : List String) : List GroundedEntity :=
  tokens.flatMap (fun tok =>
    if tok.length < 3 then []
    else (o.sectorDirect tok).map (fun r =>
      { name := r.1, type := EntityType.SECTOR, confidence := 0.8, properties := r.2 }))

/-- The alias-match pass of `_ground_sectors`: `Term → Entity → Sector`
alias matches at confidence 0.9, in token order. -/
def sectorAliasPass (o : GroundOracles) (tokens : List String) : List GroundedEntity :=
  tokens.flatMap (fun tok =>
    if tok.length < 3 then []
    else (o.sectorAlias tok).map (fun r =>
      { name := r.1, type := EntityType.SECTOR, confidence := 0.9, properties := r.2 }))

/-- `_ground_sectors`: the direct pass, then the alias pass, then
first-seen deduplication by name. -/
def ground_sectors (o : GroundOracles) (tokens : List String) : List GroundedEntity :=
  dedupSectorsAux [] (sectorDirectPass o tokens ++ sectorAliasPass o tokens)

/-- `_ground_numbers`: percentages and thresholds become `Percent`
entities named `f"{p:.1%}"`; counts become `Count` entities named
`str(c)`. -/
def ground_numbers (nums : ExtractedNumbers) : List GroundedEntity :=
  ((nums.percentages ++ nums.thresholds).map (fun p =>
     { name := fmtFixed 1 (p * 100) ++ "%", type := EntityType.PERCENT,
       confidence := 1, properties := [("value", Val.vNum p)] }))
  ++ nums.counts.map (fun c =>
     { name := intToStr c, type := EntityType.COUNT,
       confidence := 1, properties := [("value", Val.vInt c)] })

/-- `EntityGrounder.ground_entities`. -/
def ground_entities (o : GroundOracles) (pre : PreprocessedText) : List GroundedEntity :=
  let etfEnts := ground_etfs o pre.potential_tickers
  let etfNames := etfEnts.map (fun e => e.name)
  let companyTickers := pre.potential_tickers.filter (fun t => !etfNames.any (fun n => n = t))
  etfEnts ++ ground_companies o companyTickers
    ++ ground_sectors o pre.tokens ++ ground_numbers pre.extracted_numbers

/-! ## Intent classifier (`intent_classifier.py`)

The language model is the oracle `LlmOracle` (prompt to generated text or
a transport failure); `hashlib.md5(...).hexdigest()` is the abstract hash
oracle `Md5`.  `json.loads` is modelled on the flat objects the
classification prompt requests (string keys, string/number/bool/null
values, no escape sequences or exponents); on anything else the model
parser fails, which takes the same fall-through path as a parse error. -/

/-- The language-model client (`OllamaService.generate`). -/
abbrev LlmOracle := String → Except String String

/-- `hashlib.md5(x.encode()).hexdigest()` as an abstract function. -/
abbrev Md5 := String → String

/-- `IntentResult`. -/
structure IntentResult where
  intent : String
  confidence : ℚ
  entities : List GroundedEntity
  required_parameters : List String

/-- The classification cache: key, cached result, insertion time. -/
abbrev ClassCache := List (String × IntentResult × ℚ)

/-- A JSON value as produced by the model (flat subset). -/
inductive JVal : Type where
  | jstr : String → JVal
  | jnum : ℚ → JVal
  | jbool : Bool → JVal
  | jnull : JVal

/-- Skip JSON whitespace. -/
def skipWsJ (l : List Char) : List Char :=
  l.dropWhile pyIsSpace

/-- Parse a JSON string literal without escape sequences. -/
def parseJStr : List Char → Option (String × List Char)
  | '"' :: r =>
    let body := r.takeWhile (fun c => c ≠ '"')
    match r.drop body.length with
    | '"' :: rest => some (String.mk body, rest)
    | _ => none
  | _ => none

/-- Parse a JSON number without exponent. -/
def parseJNum (l : List Char) : Option (ℚ × List Char) :=
  let negp := (match l with | '-' :: r => (true, r) | _ => (false, l))
  let p := takeDigits negp.2
  if p.1.isEmpty then none
  else
    let t :=
      match p.2 with
      | '.' :: rr =>
        let f := takeDigits rr
        if f.1.isEmpty then none else some (ratOfNumeral (p.1 ++ '.' :: f.1), f.2)
      | _ => some (ratOfNumeral p.1, p.2)
    t.map (fun v => (if negp.1 then -v.1 else v.1, v.2))

/-- Parse one flat JSON value. -/
def parseJVal (l : List Char) : Option (JVal × List Char) :=
  match l with
  | '"' :: _ => (parseJStr l).map (fun p => (JVal.jstr p.1, p.2))
  | 't' :: r => if charsHasPre "rue".data r then some (JVal.jbool true, r.drop 3) else none
  | 'f' :: r => if charsHasPre "alse".data r then some (JVal.jbool false, r.drop 4) else none
  | 'n' :: r => if charsHasPre "ull".data r then some (JVal.jnull, r.drop 3) else none
  | _ => (parseJNum l).map (fun p => (JVal.jnum p.1, p.2))

/-- Parse the members of a flat JSON object after the opening brace,
returning the pairs and the remainder after the closing brace. -/
def parseJPairs : ℕ → List Char → Option (List (String × JVal) × List Char)
  | 0, _ => none
  | fuel + 1, l =>
    match parseJStr (skipWsJ l) with
    | none => none
    | some k =>
      match skipWsJ k.2 with
      | ':' :: r2 =>
        match parseJVal (skipWsJ r2) with
        | none => none
        | some v =>
          match skipWsJ v.2 with
          | ',' :: r3 =>
            (parseJPairs fuel r3).map (fun p => ((k.1, v.1) :: p.1, p.2))
          | '\x7d' :: r3 => some ([(k.1, v.1)], r3)
          | _ => none
      | _ => none

/-- `json.loads` on a flat object (modelled subset): the whole input must
be one object with optional surrounding whitespace. -/
def jsonLoadsFlat (l : List Char) : Option (List (String × JVal)) :=
  match skipWsJ l with
  | '\x7b' :: r =>
    match skipWsJ r with
    | '\x7d' :: r2 => if (skipWsJ r2).isEmpty then some [] else none
    | _ =>
      match parseJPairs (l.length + 1) r with
      | some p => if (skipWsJ p.2).isEmpty then some p.1 else none
      | none => none
  | _ => none

/-- First-match lookup in a parsed JSON object. -/
def jGet (pairs : List (String × JVal)) (k : String) : Option JVal :=
  (pairs.find? (fun p => p.1 = k)).map (fun p => p.2)

/-- Python `float(v)` on a JSON value (`float()` of a non-numeric,
non-numeral value raises `ValueError`). -/
def pyFloatOfJVal : JVal → Except String ℚ
  | JVal.jnum q => Except.ok q
  | JVal.jbool b => Except.ok (if b then 1 else 0)
  | JVal.jnull => Except.error "float() argument"
  | JVal.jstr s =>
    let l := charsStrip s.data
    let negp := (match l with | '-' :: r => (true, r) | '+' :: r => (false, r) | _ => (false, l))
    let p := takeDigits negp.2
    if p.1.isEmpty then Except.error "could not convert string to float"
    else
      match p.2 with
      | [] => Except.ok (if negp.1 then -(ratOfNumeral p.1) else ratOfNumeral p.1)
      | '.' :: rr =>
        let f := takeDigits rr
        if f.2.isEmpty then
          Except.ok (if negp.1 then -(ratOfNumeral (p.1 ++ '.' :: f.1)) else ratOfNumeral (p.1 ++ '.' :: f.1))
        else Except.error "could not convert string to float"
      | _ => Except.error "could not convert string to float"

/-- The `str` intent value of a parsed JSON field: a non-string JSON
value can never equal a catalogue key, which the sentinel preserves. -/
def jIntentStr : JVal → String
  | JVal.jstr s => s
  | _ => "\x00nonstring"

/-- `_extract_from_text`: first catalogue key occurring in the lowercased
response, at confidence 0.7; else `sector_exposure` at 0.5. -/
def extract_from_text (response : String) : String × ℚ :=
  let low := String.mk (pyLowerChars response.data)
  match list_available_intents.find? (fun i => strHasSub low i) with
  | some i => (i, 0.7)
  | none => ("sector_exposure", 0.5)

/-- `_parse_classification_response`: extract the first-`\x7b`-to-last-`\x7d`
slice, parse it as JSON, and accept an `intent`/`confidence` pair;
on any parse or conversion failure fall back to `_extract_from_text`. -/
def parse_classification_response (response : String) : String × ℚ :=
  let l := response.data
  match l.findIdx? (fun c => c = '\x7b'), (l.reverse.findIdx? (fun c => c = '\x7d')) with
  | some si, some rj =>
    let ei := l.length - rj
    if si < ei then
      match jsonLoadsFlat ((l.drop si).take (ei - si)) with
      | some pairs =>
        match jGet pairs "intent", jGet pairs "confidence" with
        | some iv, some cv =>
          match pyFloatOfJVal cv with
          | Except.ok c => (jIntentStr iv, c)
          | Except.error _ => extract_from_text response
        | _, _ => extract_from_text response
      | none => extract_from_text response
    else extract_from_text response
  | _, _ => extract_from_text response

/-- Number of entities of a type (`sum(1 for e in entities if ...)`). -/
def typeCount (entities : List GroundedEntity) (ty : EntityType) : ℕ :=
  (entities.filter (fun e => e.type = ty)).length

/-- `_validate_intent_entity_match`. -/
def validate_intent_entity_match (intent : String) (entities : List GroundedEntity)
    (query : String) : Bool :=
  let query_lower := String.mk (pyLowerChars query.data)
  let etf_count := typeCount entities EntityType.ETF
  let company_count := typeCount entities EntityType.COMPANY
  let sector_count := typeCount entities EntityType.SECTOR
  let has_percentage := entities.any (fun e => e.type = EntityType.PERCENT)
  if intent = "etf_exposure_to_company" then
    etf_count = 1 && company_count = 1
  else if intent = "etf_overlap_weighted" || intent = "etf_overlap_jaccard" then
    etf_count ≥ 2
  else if intent = "sector_exposure" then
    etf_count ≥ 1 && company_count = 0
  else if intent = "etfs_by_sector_threshold" then
    sector_count ≥ 1 && company_count = 0 &&
      (strHasSub query_lower "which etf" || strHasSub query_lower "what etf" || has_percentage)
  else if intent = "company_rankings" then
    company_count ≥ 1 && etf_count = 0
  else if intent = "general_llm" then
    true
  else
    true

/-- `_get_required_parameters`: the catalogue entry's required-parameter
list, or `[]` for an unknown key. -/
def get_required_parameters (intent : String) : List String :=
  match CYPHER_TEMPLATES intent with
  | some t => t.required_params
  | none => []

/-- `_fallback_classification`: the priority-ordered rule set. -/
def fallback_classification (query : String) (entities : List GroundedEntity) : IntentResult :=
  let query_lower := String.mk (pyLowerChars query.data)
  let etf_count := typeCount entities EntityType.ETF
  let company_count := typeCount entities EntityType.COMPANY
  let sector_count := typeCount entities EntityType.SECTOR
  let has_percentage := entities.any (fun e => e.type = EntityType.PERCENT)
  let has_count := entities.any (fun e => e.type = EntityType.COUNT)
  let ic : String × ℚ :=
    if etf_count = 1 && company_count = 1 &&
        (strHasSub query_lower "exposure" || strHasSub query_lower "hold" ||
         strHasSub query_lower "position") then
      ("etf_exposure_to_company", 0.95)
    else if (strHasSub query_lower "which etf" || strHasSub query_lower "what etf") &&
        company_count ≥ 1 then
      ("company_rankings", 0.9)
    else if (strHasSub query_lower "which etf" || strHasSub query_lower "what etf") &&
        sector_count ≥ 1 then
      ("etfs_by_sector_threshold", 0.9)
    else if etf_count ≥ 2 && company_count = 1 then
      ("company_rankings", 0.85)
    else if etf_count = 1 && company_count = 1 then
      ("etf_exposure_to_company", 0.85)
    else if etf_count = 2 && (strHasSub query_lower "overlap" || strHasSub query_lower "similar") then
      if strHasSub query_lower "jaccard" || strHasSub query_lower "count" ||
          strHasSub query_lower "percentage" then
        ("etf_overlap_jaccard", 0.8)
      else if strHasSub query_lower "weight" || strHasSub query_lower "combined" ||
          strHasSub query_lower "top" then
        ("etf_overlap_weighted", 0.8)
      else
        ("etf_overlap_weighted", 0.8)
    else if etf_count = 1 && sector_count ≥ 1 then
      ("sector_exposure", 0.8)
    else if sector_count ≥ 1 && has_percentage then
      ("etfs_by_sector_threshold", 0.75)
    else if company_count = 1 && etf_count = 0 then
      ("company_rankings", 0.8)
    else if has_count && (strHasSub query_lower "top" || strHasSub query_lower "holdings") then
      ("top_holdings_subgraph", 0.75)
    else
      ("general_llm", 0.8)
  { intent := ic.1, confidence := ic.2, entities := entities,
    required_parameters := get_required_parameters ic.1 }

/-- `_create_entity_summary`. -/
def create_entity_summary (entities : List GroundedEntity) : String :=
  if entities.isEmpty then "No entities found"
  else
    let etfs := (entities.filter (fun e => e.type = EntityType.ETF)).map (fun e => e.name)
    let companies := (entities.filter (fun e => e.type = EntityType.COMPANY)).map (fun e => e.name)
    let sectors := (entities.filter (fun e => e.type = EntityType.SECTOR)).map (fun e => e.name)
    let numbers := (entities.filter (fun e =>
        e.type = EntityType.PERCENT || e.type = EntityType.COUNT)).map (fun e => e.name)
    let parts :=
      (if etfs.isEmpty then [] else ["ETFs: " ++ joinSep ", " etfs]) ++
      (if companies.isEmpty then [] else ["Companies: " ++ joinSep ", " companies]) ++
      (if sectors.isEmpty then [] else ["Sectors: " ++ joinSep ", " sectors]) ++
      (if numbers.isEmpty then [] else ["Numbers: " ++ joinSep ", " numbers])
    if parts.isEmpty then "No specific entities" else joinSep "; " parts

def classification_prompt_part1 : String :=
  "You are an ETF investment analysis assistant. Classify the user's query into ONE of the following intents. Return ONLY a JSON object with the intent key and confidence score.\n\nAvailable intents:\n- etf_exposure_to_company: Questions about how much a SPECIFIC ETF holds of a SPECIFIC COMPANY (e.g., \"SPY's exposure to AAPL\", \"What percent of QQQ is Microsoft?\")\n- etf_overlap_weighted: Questions about weighted overlap, combined weights, or top shared holdings between TWO ETFs\n- etf_overlap_jaccard: Questions about Jaccard similarity, count-based overlap, or percentage of shared holdings between ETFs\n- sector_exposure: Questions about sector distribution within a SPECIFIC ETF (e.g., \"SPY's tech sector exposure\", \"QQQ's sector breakdown\") - NOT for individual companies\n- etfs_by_sector_threshold: Questions asking WHICH ETFs meet sector exposure criteria (like \"Which ETFs have 20% tech exposure?\")\n- top_holdings_subgraph: Questions about top holdings for visualization\n- company_rankings: Questions about which ETFs hold a specific company\n- general_llm: General questions, financial advice, or topics outside ETF analysis\n\nUser Query: \""

def classification_prompt_part2 : String :=
  "\"\n\nGrounded Entities: "

def classification_prompt_part3 : String :=
  "\n\nReturn JSON format:\n\x7b\"intent\": \"intent_key\", \"confidence\": 0.95\x7d\n\nGuidelines:\n- CRITICAL: If query asks about ONE ETF's exposure to ONE company (e.g., \"SPY's exposure to AAPL\") → use \"etf_exposure_to_company\"\n- CRITICAL: If query asks \"which ETFs\" or \"what ETFs\" with sector criteria → use \"etfs_by_sector_threshold\"\n- CRITICAL: If query asks about a specific ETF's sector exposure (e.g., \"SPY's tech exposure\") → use \"sector_exposure\"\n- Company symbols like AAPL, MSFT, GOOGL should trigger \"etf_exposure_to_company\" when paired with an ETF\n- Use entity information to improve classification accuracy\n- Confidence should be 0.3-1.0 (relaxed threshold for better coverage)\n- If multiple intents could apply, choose the most specific one\n- Consider the presence of ETF tickers, company symbols, and sector names"

/-- `self.classification_prompt.format(query=…, entities=…)`. -/
def classification_prompt_fmt (query entities : String) : String :=
  classification_prompt_part1 ++ query ++ classification_prompt_part2 ++ entities
    ++ classification_prompt_part3

/-- `_get_cache_key`. -/
def get_cache_key (md5 : Md5) (query : String) (entities : List GroundedEntity) : String :=
  md5 (String.mk (charsStrip (pyLowerChars query.data)) ++ "|" ++
       joinSep "," (sortByLe strLeB (entities.map (fun e => e.name))))

/-- `_get_cached_classification`: the cached value when fresh; an expired
entry is removed. -/
def get_cached_classification (cache : ClassCache) (key : String) (now : ℚ) :
    Option IntentResult × ClassCache :=
  match cache.find? (fun e => e.1 = key) with
  | some entry =>
    if now - entry.2.2 < 3600 then (some entry.2.1, cache)
    else (none, cache.filter (fun e => !(e.1 = key)))
  | none => (none, cache)

/-- The key with the minimal timestamp (first minimal in iteration
order), used by the cap eviction of both TTL caches
(`min(cache.keys(), key=lambda k: cache[k][1])`). -/
def minTsKey {α : Type} : List (String × α × ℚ) → Option String
  | [] => none
  | e :: rest =>
    some ((rest.foldl (fun b x => if x.2.2 < b.2.2 then x else b) e).1)

/-- `_cache_classification`: evict the oldest entry when over the cap of
100, then insert. -/
def cache_classification (cache : ClassCache) (key : String) (r : IntentResult) (now : ℚ) :
    ClassCache :=
  let c1 :=
    if cache.length > 100 then
      match minTsKey cache with
      | some k => cache.filter (fun e => !(e.1 = k))
      | none => cache
    else cache
  (key, r, now) :: c1

/-- `IntentClassifier.classify`.  The source rebinds `classification` to
the `IntentResult` returned by `_fallback_classification` when the LLM
label is unknown or fails the entity predicate; the subsequent subscript
access then raises inside the `try`, and the `except` handler returns
`_fallback_classification(query, entities)` without caching.  A parsed
confidence outside pydantic's `[0,1]` bound likewise raises at
`IntentResult` construction and lands in the same handler.  Both paths
are modelled as direct fallback returns with the cache unchanged. -/
def classify (llm : LlmOracle) (md5 : Md5) (cache : ClassCache) (now : ℚ)
    (query : String) (entities : List GroundedEntity) : IntentResult × ClassCache :=
  let key := get_cache_key md5 query entities
  match get_cached_classification cache key now with
  | (some r, cache2) => (r, cache2)
  | (none, cache2) =>
    let prompt := classification_prompt_fmt query (create_entity_summary entities)
    match llm prompt with
    | Except.error _ => (fallback_classification query entities, cache2)
    | Except.ok response =>
      let cls := parse_classification_response response
      if !list_available_intents.any (fun i => i = cls.1) then
        (fallback_classification query entities, cache2)
      else if !validate_intent_entity_match cls.1 entities query then
        (fallback_classification query entities, cache2)
      else if 0 ≤ cls.2 && cls.2 ≤ 1 then
        let r : IntentResult :=
          { intent := cls.1, confidence := cls.2, entities := entities,
            required_parameters := get_required_parameters cls.1 }
        (r, cache_classification cache2 key r now)
      else
        (fallback_classification query entities, cache2)

/-! ## Parameter fulfiller (`parameter_fulfiller.py`) -/

/-- `ParameterFulfillment`. -/
structure ParameterFulfillment where
  parameters : Params
  missing_parameters : List String
  is_complete : Bool

/-- The `(confidence, len(name))` lexicographic key comparison used by
`_find_entity_value` (`max` keeps the first maximal element). -/
def entityKeyGt (e b : GroundedEntity) : Bool :=
  e.confidence > b.confidence ||
    (e.confidence = b.confidence && e.name.length > b.name.length)

/-- `_find_entity_value`: best entity of a type by `(confidence,
name-length)`, returning `properties["value"]` (default the name) for
numeric types and the name otherwise. -/
def find_entity_value (entities : List GroundedEntity) (ty : EntityType) : Option Val :=
  match entities.filter (fun e => e.type = ty) with
  | [] => none
  | c :: cs =>
    let best := cs.foldl (fun b e => if entityKeyGt e b then e else b) c
    if ty = EntityType.PERCENT || ty = EntityType.COUNT then
      some (assocGetD best.properties "value" (Val.vStr best.name))
    else
      some (Val.vStr best.name)

/-- `_find_all_entity_values`. -/
def find_all_entity_values (entities : List GroundedEntity) (ty : EntityType) : List Val :=
  entities.filterMap (fun e =>
    if e.type = ty then
      if ty = EntityType.PERCENT || ty = EntityType.COUNT then
        some (assocGetD e.properties "value" (Val.vStr e.name))
      else some (Val.vStr e.name)
    else none)

/-- `ParameterFulfiller.fulfill`.  The only fallible step is the `int()`
conversion of a `Count` value in the `top_holdings_subgraph` branch; its
`ValueError`/`TypeError` propagates to the pipeline's catch-all handler
and is modelled as the `Except.error` case. -/
def fulfill (intent_result : IntentResult) (entities : List GroundedEntity) :
    Except String ParameterFulfillment :=
  let mk : Params → List String → ParameterFulfillment := fun ps missing =>
    { parameters := ps, missing_parameters := missing, is_complete := missing.isEmpty }
  if intent_result.intent = "etf_exposure_to_company" then
    let ticker := find_entity_value entities EntityType.ETF
    let symbol := find_entity_value entities EntityType.COMPANY
    let p1 := match ticker with | some v => [("ticker", v)] | none => []
    let m1 := match ticker with | some _ => ([] : List String) | none => ["ticker"]
    let p2 := match symbol with | some v => [("symbol", v)] | none => []
    let m2 := match symbol with | some _ => ([] : List String) | none => ["symbol"]
    Except.ok (mk (p1 ++ p2) (m1 ++ m2))
  else if intent_result.intent = "etf_overlap_weighted" ||
      intent_result.intent = "etf_overlap_jaccard" then
    match entities.filter (fun e => e.type = EntityType.ETF) with
    | e1 :: e2 :: _ =>
      Except.ok (mk [("ticker1", Val.vStr e1.name), ("ticker2", Val.vStr e2.name)] [])
    | [e1] => Except.ok (mk [("ticker1", Val.vStr e1.name)] ["ticker2"])
    | [] => Except.ok (mk [] ["ticker1", "ticker2"])
  else if intent_result.intent = "sector_exposure" then
    match find_entity_value entities EntityType.ETF with
    | some v => Except.ok (mk [("ticker", v)] [])
    | none => Except.ok (mk [] ["ticker"])
  else if intent_result.intent = "etfs_by_sector_threshold" then
    let p1m1 : Params × List String :=
      match find_entity_value entities EntityType.SECTOR with
      | some v => ([("sector", v)], [])
      | none => ([], ["sector"])
    let p2 : Params :=
      match find_entity_value entities EntityType.PERCENT with
      | some v => [("threshold", v)]
      | none => [("threshold", Val.vNum 0.05)]
    Except.ok (mk (p1m1.1 ++ p2) p1m1.2)
  else if intent_result.intent = "top_holdings_subgraph" then
    let p1m1 : Params × List String :=
      match find_entity_value entities EntityType.ETF with
      | some v => ([("ticker", v)], [])
      | none => ([], ["ticker"])
    match find_entity_value entities EntityType.COUNT with
    | some v =>
      match pyIntOfVal v with
      | Except.ok n => Except.ok (mk (p1m1.1 ++ [("top_n", Val.vInt (min n 50))]) p1m1.2)
      | Except.error e => Except.error e
    | none => Except.ok (mk (p1m1.1 ++ [("top_n", Val.vInt 10)]) p1m1.2)
  else if intent_result.intent = "company_rankings" then
    let p1m1 : Params × List String :=
      match find_entity_value entities EntityType.COMPANY with
      | some v => ([("symbol", v)], [])
      | none => ([], ["symbol"])
    let p2 : Params :=
      match find_all_entity_values entities EntityType.ETF with
      | [] => [("etf_tickers", Val.vNone)]
      | ts => [("etf_tickers", Val.vList ts)]
    Except.ok (mk (p1m1.1 ++ p2) p1m1.2)
  else
    Except.ok (mk [] [])

/-! ## LLM synthesizer (`llm_synthesizer.py`)

Row fields that the summaries interpolate numerically are produced as
numbers by the templates; a non-numeric value in such a position is read
as 0 here (in Python it would raise inside the synthesis `try` and land
in the deterministic fallback — a path none of the claims exercise). -/

/-- `row.get(k, default)` read as a number. -/
def rowNumD (row : Row) (k : String) (d : ℚ) : ℚ :=
  match assocGet row k with
  | some v => numOfVal v
  | none => d

/-- `row.get(k, default)` read as a string for interpolation. -/
def rowStrD (row : Row) (k : String) (d : String) : String :=
  match assocGet row k with
  | some v => pyStrOfVal v
  | none => d

/-- `.get(k, d)` on a value expected to be a dict. -/
def hGetD (v : Val) (k : String) (d : Val) : Val :=
  match v with
  | Val.vMap m => assocGetD m k d
  | _ => d

/-- `str(n)` for naturals. -/
def natToStr (n : ℕ) : String :=
  String.mk (natToChars n)

/-- Python `int()` truncation (toward zero) of a numeric value. -/
def truncOfRat (q : ℚ) : ℤ :=
  q.num / (q.den : ℤ)

/-- The fixed `no_results_responses`; `_get_no_results_response` always
returns the first. -/
def no_results_response : String :=
  "No matching holdings found for the specified parameters. Our database covers SPY, QQQ, IWM, IJH, IVE, and IVW with their complete portfolio compositions. Please verify ticker symbols or try alternative search terms."

/-- `_summarize_exposure`. -/
def summarize_exposure (rows : List Row) : String :=
  match rows with
  | [] => "No exposure data found."
  | row :: _ =>
    "ETF " ++ rowStrD row "etf_ticker" "ETF" ++ " holds " ++
      fmtFixed 2 (rowNumD row "exposure_percent" 0) ++ "% in " ++
      rowStrD row "company_name" (rowStrD row "c.symbol" "company") ++ "."

/-- `_summarize_overlap`. -/
def summarize_overlap (rows : List Row) : String :=
  match rows with
  | [] => "No overlap data found."
  | top :: _ =>
    let total_combined := (rows.take 10).foldl (fun a r => a + rowNumD r "combined_percent" 0) 0
    "Found " ++ natToStr rows.length ++
      " overlapping holdings with total combined exposure of " ++ fmtFixed 2 total_combined ++
      "%. Top overlap: " ++ rowStrD top "company_name" "Unknown" ++ " with " ++
      fmtFixed 2 (rowNumD top "combined_percent" 0) ++ "% combined exposure."

/-- `_summarize_jaccard`. -/
def summarize_jaccard (rows : List Row) : String :=
  match rows with
  | [] => "No Jaccard data found."
  | row :: _ =>
    let jaccard := rowNumD row "jaccard_similarity" 0
    "Jaccard similarity: " ++ fmtFixed 4 jaccard ++ " (" ++
      fmtFixed 2 (rowNumD row "jaccard_percent" (jaccard * 100)) ++ "%). Intersection: " ++
      rowStrD row "intersection" "0" ++ " companies. ETF1 holdings: " ++
      rowStrD row "count1" "0" ++ ", ETF2 holdings: " ++ rowStrD row "count2" "0"

/-- `_summarize_sectors`. -/
def summarize_sectors (rows : List Row) : String :=
  match rows with
  | [] => "No sector data found."
  | top :: _ =>
    "ETF has exposure to " ++ natToStr rows.length ++ " sectors. Largest sector exposure: " ++
      rowStrD top "sector" "Unknown" ++ " at " ++ fmtFixed 2 (rowNumD top "exposure_percent" 0) ++
      "% with " ++ rowStrD top "company_count" "0" ++ " companies."

/-- `_summarize_sector_etfs`. -/
def summarize_sector_etfs (rows : List Row) : String :=
  match rows with
  | [] => "No ETFs meet the sector threshold criteria."
  | top :: _ =>
    "Found " ++ natToStr rows.length ++ " ETFs meeting sector criteria. Highest exposure: " ++
      rowStrD top "ticker" "Unknown" ++ " at " ++ fmtFixed 2 (rowNumD top "exposure_percent" 0) ++ "%."

/-- `_summarize_company_rankings`. -/
def summarize_company_rankings (rows : List Row) : String :=
  match rows with
  | [] => "No ETF holdings found for this company."
  | _ =>
    let holdings := rows.map (fun row =>
      rowStrD row "e.ticker" "Unknown" ++ " (" ++ rowStrD row "etf_name" "Unknown ETF" ++ "): " ++
        fmtFixed 2 (rowNumD row "exposure_percent" 0) ++ "%")
    let holdings_list :=
      joinSep ", " (holdings.take 3) ++
        (if rows.length > 3 then " and " ++ natToStr (rows.length - 3) ++ " more" else "")
    "Company held by " ++ natToStr rows.length ++ " ETFs. Rankings: " ++ holdings_list ++ "."

/-- `_summarize_top_holdings`. -/
def summarize_top_holdings (rows : List Row) : String :=
  match rows with
  | [] => "No holdings data found."
  | first :: _ =>
    let percentages := rows.map (fun r => rowNumD r "exposure_percent" 0)
    let total_exposure := percentages.foldl (fun a b => a + b) 0
    let max_exposure := percentages.foldl (fun a b => max a b) (rowNumD first "exposure_percent" 0)
    let top_company := rowStrD first "company_name" (rowStrD first "c.symbol" "Unknown")
    "Top " ++ natToStr rows.length ++ " holdings include " ++ top_company ++ " (" ++
      fmtFixed 2 max_exposure ++ "%), with total exposure of " ++ fmtFixed 2 total_exposure ++ "%."

/-- Placeholder repr of a row list for the generic summary branch
(`str(top_rows[:3])`); its exact text only feeds the LLM prompt. -/
def reprRowsApprox (rows : List Row) : String :=
  "[" ++ joinSep ", " (rows.map (fun _ => "\x7b...\x7d")) ++ "]"

/-- `_create_results_summary`. -/
def create_results_summary (rows : List Row) (intent : String) : String :=
  if intent = "general_llm" then "No data query needed. Respond using your knowledge."
  else if rows.isEmpty then "No data found."
  else
    let top_rows := rows.take 5
    if intent = "etf_exposure_to_company" then summarize_exposure top_rows
    else if intent = "etf_overlap_weighted" then summarize_overlap top_rows
    else if intent = "etf_overlap_jaccard" then summarize_jaccard top_rows
    else if intent = "sector_exposure" then summarize_sectors top_rows
    else if intent = "etfs_by_sector_threshold" then summarize_sector_etfs top_rows
    else if intent = "company_rankings" then summarize_company_rankings top_rows
    else if intent = "top_holdings_subgraph" then summarize_top_holdings top_rows
    else
      "Query returned " ++ natToStr rows.length ++ " results. Top results: " ++
        reprRowsApprox (top_rows.take 3)

/-- Anchored test of `\d+\.?\d*%`. -/
def pat1At (l : List Char) : Bool :=
  let p := takeDigits l
  if p.1.isEmpty then false
  else
    match p.2 with
    | '%' :: _ => true
    | '.' :: r =>
      (match (takeDigits r).2 with
       | '%' :: _ => true
       | _ => false)
    | _ => false

/-- Anchored test of `\$[\d,]+\.?\d*`. -/
def pat2At : List Char → Bool
  | '$' :: c :: _ => pyIsDigit c || c = ','
  | _ => false

/-- Word-boundary test given the previous character. -/
def boundaryBefore : Option Char → Bool
  | some p => !pyIsWord p
  | none => true

/-- Anchored test of `\b\d+\.\d+\b`. -/
def pat3At (prev : Option Char) (l : List Char) : Bool :=
  boundaryBefore prev &&
    (let p := takeDigits l
     !p.1.isEmpty &&
       match p.2 with
       | '.' :: r =>
         let f := takeDigits r
         !f.1.isEmpty && (match f.2 with | [] => true | c :: _ => !pyIsWord c)
       | _ => false)

/-- Anchored test of `\b\d+\b`. -/
def pat4At (prev : Option Char) (l : List Char) : Bool :=
  boundaryBefore prev &&
    (let p := takeDigits l
     !p.1.isEmpty && (match p.2 with | [] => true | c :: _ => !pyIsWord c))

/-- Does an anchored test succeed at some position (`re.search`)? -/
def anySuffixWithPrev (f : Option Char → List Char → Bool) : Option Char → List Char → Bool
  | _, [] => false
  | prev, c :: rest => f prev (c :: rest) || anySuffixWithPrev f (some c) rest

/-- `_contains_concrete_number`: any of the four numeric patterns
matches. -/
def contains_concrete_number (text : String) : Bool :=
  anySuffixWithPrev (fun _ l => pat1At l) none text.data ||
  anySuffixWithPrev (fun _ l => pat2At l) none text.data ||
  anySuffixWithPrev pat3At none text.data ||
  anySuffixWithPrev pat4At none text.data

/-- The key loop of `_add_concrete_number` over the first row's items. -/
def addNumLoop (resp : String) (added : Bool) : Row → String
  | [] => resp
  | (k, v) :: rest =>
    if isNumericVal v && numOfVal v > 0 && !added then
      let kl := String.mk (pyLowerChars k.data)
      if strHasSub kl "percent" || strHasSub kl "exposure_percent" then
        addNumLoop (resp ++ " (" ++ fmtFixed 2 (numOfVal v) ++ "%)") true rest
      else if strHasSub kl "count" then
        addNumLoop (resp ++ " (Count: " ++ intToStr (truncOfRat (numOfVal v)) ++ ")") true rest
      else addNumLoop resp added rest
    else addNumLoop resp added rest

/-- `_add_concrete_number`. -/
def add_concrete_number (response : String) (rows : List Row) (_intent : String) : String :=
  match rows with
  | [] => response
  | first :: _ => addNumLoop response false first

/-- `" ".join` on char-list words. -/
def joinSpaceChars : List (List Char) → List Char
  | [] => []
  | [w] => w
  | w :: ws => w ++ ' ' :: joinSpaceChars ws

/-- `str.rfind(pat)`: index of the last occurrence of `pat`, if any. -/
def rfindSub (pat l : List Char) : Option ℕ :=
  let idxs := (List.range (l.length + 1)).filter (fun i => charsHasPre pat (l.drop i))
  idxs.getLast?

/-- `_ensure_word_limit`: unchanged when within the cap, else join the
first `max_words` words and cut at the last sentence boundary in the
final 30%, if one exists. -/
def ensure_word_limit (response : String) (max_words : ℕ) : String :=
  let words := splitWsChars response.data
  if words.length ≤ max_words then response
  else
    let truncChars := joinSpaceChars (words.take max_words)
    let tryPunct : List Char → Option String := fun punct =>
      match rfindSub punct truncChars with
      | some i =>
        if (i : ℚ) > (truncChars.length : ℚ) * (7 / 10) then
          some (String.mk (truncChars.take (i + 1)))
        else none
      | none => none
    match tryPunct ". ".data with
    | some s => s
    | none =>
      match tryPunct "! ".data with
      | some s => s
      | none =>
        match tryPunct "? ".data with
        | some s => s
        | none => String.mk truncChars

/-- Python `str.title()` on ASCII. -/
def titleChars (prevAlpha : Bool) : List Char → List Char
  | [] => []
  | c :: rest =>
    let isAl := ('a' ≤ c && c ≤ 'z') || ('A' ≤ c && c ≤ 'Z')
    (if isAl then (if prevAlpha then c.toLower else c.toUpper) else c) ::
      titleChars isAl rest

/-- `intent.replace("_", " ").title()`. -/
def intentReadable (intent : String) : String :=
  String.mk (titleChars false (intent.data.map (fun c => if c = '_' then ' ' else c)))

/-- The key-number loop of `_create_fallback_response` (breaks at the
first weight- or count-keyed positive numeric field). -/
def fallbackKeyNumber : Row → String
  | [] => ""
  | (k, v) :: rest =>
    if isNumericVal v && numOfVal v > 0 then
      let kl := String.mk (pyLowerChars k.data)
      if strHasSub kl "weight" then
        " with key weight of " ++ fmtFixed 4 (numOfVal v) ++ " (" ++
          fmtFixed 2 (numOfVal v * 100) ++ "%)"
      else if strHasSub kl "count" then
        " showing " ++ intToStr (truncOfRat (numOfVal v)) ++ " items"
      else fallbackKeyNumber rest
    else fallbackKeyNumber rest

/-- `_create_fallback_response`. -/
def create_fallback_response (rows : List Row) (intent : String) : String :=
  if intent = "general_llm" then
    "I'm unable to process general questions at the moment. Please try asking about ETF analysis instead."
  else
    match rows with
    | [] => "No results found for this query."
    | first :: _ =>
      "Analysis complete: Found " ++ natToStr rows.length ++ " data points for " ++
        intentReadable intent ++ fallbackKeyNumber first ++
        ". The results provide specific ETF exposure metrics and portfolio composition details that can inform your investment decisions."

def synthesis_prompt_part1 : String :=
  "You are a professional ETF analyst. Analyze the data and provide investment insights.\n\nUser Query: "

def synthesis_prompt_part2 : String :=
  "\nIntent: "

def synthesis_prompt_part3 : String :=
  "  \nResults Summary: "

def synthesis_prompt_part4 : String :=
  "\n\nProvide a professional analysis that explains what this data means for investors. Include the specific percentages and explain the investment significance. Use precise financial terminology. Keep response comprehensive yet focused (150-300 words).\n\nAnalysis:"

def enhanced_prompt_part1 : String :=
  "You are a senior ETF strategist with comprehensive market intelligence. Provide expert analysis that transforms data into actionable investment insights.\n\nUser Query: "

def enhanced_prompt_part2 : String :=
  "\nIntent Classification: "

def enhanced_prompt_part3 : String :=
  " (confidence: "

def enhanced_prompt_part4 : String :=
  ")\nRelevant Entities: "

def enhanced_prompt_part5 : String :=
  "\n\nComprehensive ETF Intelligence:\n"

def enhanced_prompt_part6 : String :=
  "\n\nSTRATEGIC ANALYSIS FRAMEWORK:\n- Synthesize data into clear investment implications and portfolio insights\n- Quantify concentration risks, diversification benefits, and sector exposures\n- Provide comparative context across ETFs with specific percentages\n- Highlight market positioning and competitive advantages/disadvantages\n- Identify potential correlation risks or diversification opportunities\n- Address liquidity, volatility, and risk-adjusted return considerations when relevant\n- Use professional investment terminology with practical applications\n- Structure insights for both tactical allocation and strategic planning\n- Deliver 200-400 words of comprehensive, high-value analysis\n\nProfessional Investment Analysis:"

/-- `self.synthesis_prompt.format(...)`. -/
def synthesis_prompt_fmt (query intent results_summary : String) : String :=
  synthesis_prompt_part1 ++ query ++ synthesis_prompt_part2 ++ intent ++
    synthesis_prompt_part3 ++ results_summary ++ synthesis_prompt_part4

/-- `LLMSynthesizer.synthesize`: no-results short circuit, LLM call,
numeric-literal repair, word cap, strip; deterministic fallback when the
LLM call fails. -/
def synthesize (llm : LlmOracle) (query : String) (cypher_result : CypherResult)
    (intent_result : IntentResult) : String :=
  if cypher_result.rows.isEmpty && intent_result.intent ≠ "general_llm" then
    no_results_response
  else
    let results_summary := create_results_summary cypher_result.rows intent_result.intent
    let prompt := synthesis_prompt_fmt query intent_result.intent results_summary
    match llm prompt with
    | Except.error _ => create_fallback_response cypher_result.rows intent_result.intent
    | Except.ok response =>
      let r1 :=
        if intent_result.intent ≠ "general_llm" && !contains_concrete_number response then
          add_concrete_number response cypher_result.rows intent_result.intent
        else response
      strStrip (ensure_word_limit r1 400)

/-- One ETF line of `_create_comprehensive_summary`. -/
def comprehensiveEtfLine (i : ℕ) (etf_data : Row) : String :=
  let etf_ticker := rowStrD etf_data "etf_ticker" ("ETF_" ++ natToStr (i + 1))
  let etf_name := rowStrD etf_data "etf_name" "Unknown ETF"
  let total_holdings := rowStrD etf_data "total_holdings" "0"
  let holdings :=
    match assocGet etf_data "holdings" with
    | some (Val.vList hs) => hs
    | _ => []
  let holdings_summary := joinSep ", " ((holdings.take 5).map (fun h =>
    pyStrOfVal (hGetD h "symbol" (Val.vStr "UNK")) ++ " (" ++
      fmtFixed 1 (numOfVal (hGetD h "exposure_percent" (Val.vInt 0))) ++ "%)"))
  let sectors :=
    match assocGet etf_data "sectors" with
    | some (Val.vList ss) => ss
    | _ => []
  let top_sectors :=
    (sortByLe (fun a b => numOfVal (hGetD a "weight" (Val.vInt 0)) ≥
                          numOfVal (hGetD b "weight" (Val.vInt 0))) sectors).take 3
  let sector_summary := joinSep ", " (top_sectors.map (fun s =>
    pyStrOfVal (hGetD s "sector" (Val.vStr "Unknown")) ++ " (" ++
      fmtFixed 1 (numOfVal (hGetD s "weight" (Val.vInt 0))) ++ "%)"))
  "\n" ++ etf_ticker ++ " (" ++ etf_name ++ "): " ++ total_holdings ++ " holdings. " ++
    "Top holdings: " ++ holdings_summary ++ ". " ++ "Top sectors: " ++ sector_summary ++ "."

/-- `_create_comprehensive_summary`. -/
def create_comprehensive_summary (cypher_result : CypherResult) : String :=
  match cypher_result.rows with
  | [] => "No comprehensive data available."
  | rows =>
    joinSep "\n" (("Available ETFs: " ++ natToStr rows.length) ::
      ((rows.take 6).enum.map (fun p => comprehensiveEtfLine p.1 p.2)))

/-- `_create_entity_context`. -/
def create_entity_context (entities : List GroundedEntity) : String :=
  if entities.isEmpty then "None specified"
  else
    let etfs := (entities.filter (fun e => e.type = EntityType.ETF)).map (fun e => e.name)
    let companies := (entities.filter (fun e => e.type = EntityType.COMPANY)).map (fun e => e.name)
    let sectors := (entities.filter (fun e => e.type = EntityType.SECTOR)).map (fun e => e.name)
    let parts :=
      (if etfs.isEmpty then [] else ["ETFs: " ++ joinSep ", " etfs]) ++
      (if companies.isEmpty then [] else ["Companies: " ++ joinSep ", " companies]) ++
      (if sectors.isEmpty then [] else ["Sectors: " ++ joinSep ", " sectors])
    if parts.isEmpty then "None specified" else joinSep "; " parts

/-- The `enhanced_prompt` f-string of
`synthesize_with_comprehensive_data`. -/
def enhanced_prompt_fmt (query intent : String) (confidence : ℚ)
    (entity_context comprehensive_summary : String) : String :=
  enhanced_prompt_part1 ++ query ++ enhanced_prompt_part2 ++ intent ++
    enhanced_prompt_part3 ++ fmtFixed 2 confidence ++ enhanced_prompt_part4 ++
    entity_context ++ enhanced_prompt_part5 ++ comprehensive_summary ++ enhanced_prompt_part6

/-- `_add_concrete_number_from_comprehensive`. -/
def add_concrete_number_from_comprehensive (response : String)
    (cypher_result : CypherResult) : String :=
  match cypher_result.rows with
  | [] => response
  | first :: _ =>
    match assocGet first "holdings" with
    | some (Val.vList (top :: _)) =>
      response ++ " (Top holding: " ++ pyStrOfVal (hGetD top "symbol" (Val.vStr "top holding"))
        ++ " at " ++ fmtFixed 2 (numOfVal (hGetD top "exposure_percent" (Val.vInt 0))) ++ "%)"
    | _ =>
      response ++ " (Total holdings analyzed: " ++ rowStrD first "total_holdings" "0" ++ ")"

/-- `LLMSynthesizer.synthesize_with_comprehensive_data`: enhanced prompt,
numeric-literal repair from the comprehensive rows, word cap 500, strip;
on LLM failure fall back to the standard `synthesize`. -/
def synthesize_with_comprehensive_data (llm : LlmOracle) (query : String)
    (cypher_result : CypherResult) (intent_result : IntentResult)
    (entities : List GroundedEntity) : String :=
  let prompt := enhanced_prompt_fmt query intent_result.intent intent_result.confidence
    (create_entity_context entities) (create_comprehensive_summary cypher_result)
  match llm prompt with
  | Except.error _ => synthesize llm query cypher_result intent_result
  | Except.ok response =>
    let r1 :=
      if !contains_concrete_number response then
        add_concrete_number_from_comprehensive response cypher_result
      else response
    strStrip (ensure_word_limit r1 500)

/-! ## Pipeline coordinator (`pipeline.py`)

`process_query` is embedded as a function of an environment of oracles
(graph client, LLM client, grounding lookups, MD5), the mutable pipeline
state (the three caches), the request time `now`, and the query text.  It
returns the response, the successor state, and the list of graph calls
made through the executor during the request (the grounding lookups go
through their own oracles and are not template executions).  The
top-level `try/except` that converts any uncaught stage failure into the
error envelope is modelled at the two places an exception can escape a
stage in this embedding: a failed `int()` conversion in the fulfiller and
a failed comprehensive `execute` (the specific `execute` has its own
`try/except`). -/

/-- `ResponseMetadata` (per-stage wall-clock timing and the constant
`pipeline_version` are not modelled). -/
structure ResponseMetadata where
  cache_hit : Bool
  confidence : ℚ
  node_count : Option ℕ := none
  edge_count : Option ℕ := none

/-- `GraphRAGResponse`. -/
structure GraphRAGResponse where
  answer : String
  rows : List Row
  intent : String
  cypher : String
  entities : List GroundedEntity
  metadata : ResponseMetadata

/-- The mutable state of one `GraphRAGPipeline` instance: the
comprehensive-data cache with its fill time, the response cache and the
classifier's cache. -/
structure PipelineState where
  comprehensive_data_cache : Option CypherResult := none
  comprehensive_data_cache_time : ℚ := 0
  response_cache : List (String × GraphRAGResponse × ℚ) := []
  classification_cache : ClassCache := []

/-- The external collaborators of one pipeline instance. -/
structure PipelineEnv where
  md5 : Md5
  oracles : GroundOracles
  graph : GraphOracle
  llm : LlmOracle

/-- `_comprehensive_cache_ttl` (10 h). -/
def comprehensive_cache_ttl : ℚ := 36000

/-- `_response_cache_ttl` (5 h). -/
def response_cache_ttl : ℚ := 18000

/-- `_is_cache_valid`. -/
def is_cache_valid (cache_time ttl now : ℚ) : Bool :=
  now - cache_time < ttl

/-- `_get_cached_comprehensive_data`. -/
def get_cached_comprehensive_data (st : PipelineState) (now : ℚ) : Option CypherResult :=
  match st.comprehensive_data_cache with
  | some c =>
    if is_cache_valid st.comprehensive_data_cache_time comprehensive_cache_ttl now then some c
    else none
  | none => none

/-- `_cache_comprehensive_data`. -/
def cache_comprehensive_data (st : PipelineState) (data : CypherResult) (now : ℚ) :
    PipelineState :=
  { st with comprehensive_data_cache := some data, comprehensive_data_cache_time := now }

/-- `_get_cached_response`: a fresh entry is returned with
`metadata.cache_hit` set; an expired entry is deleted. -/
def get_cached_response (st : PipelineState) (query_hash : String) (now : ℚ) :
    Option GraphRAGResponse × List (String × GraphRAGResponse × ℚ) :=
  match st.response_cache.find? (fun e => e.1 = query_hash) with
  | some entry =>
    if is_cache_valid entry.2.2 response_cache_ttl now then
      (some { entry.2.1 with metadata := { entry.2.1.metadata with cache_hit := true } },
       st.response_cache)
    else (none, st.response_cache.filter (fun e => !(e.1 = query_hash)))
  | none => (none, st.response_cache)

/-- `_cache_response`: error responses and missing-parameter responses
(and empty answers) are not cached; the oldest entry is evicted over the
cap of 100. -/
def cache_response (cache : List (String × GraphRAGResponse × ℚ)) (query_hash : String)
    (response : GraphRAGResponse) (now : ℚ) : List (String × GraphRAGResponse × ℚ) :=
  if response.intent ≠ "error" && response.answer ≠ "" &&
      !strStarts response.answer "To complete your query" then
    let c1 :=
      if cache.length > 100 then
        match minTsKey cache with
        | some k => cache.filter (fun e => !(e.1 = k))
        | none => cache
      else cache
    (query_hash, response, now) :: c1
  else cache

/-- The pre-hash string of `_get_query_hash_with_context`. -/
def cache_input_string (query : String) (intent_result : IntentResult)
    (entities : List GroundedEntity) (param_result : ParameterFulfillment) : String :=
  let normalized_query := String.mk (charsStrip (pyLowerChars query.data))
  let entity_str := joinSep "|"
    ((sortByLe (fun a b => strLeB a.name b.name) entities).map
      (fun e => e.type.value ++ ":" ++ e.name))
  let param_str := joinSep "|"
    ((sortByLe strLeB (param_result.parameters.map (fun p => p.1))).map
      (fun k => k ++ "=" ++ pyStrOfVal (assocGetD param_result.parameters k Val.vNone)))
  "query:" ++ normalized_query ++ "|intent:" ++ intent_result.intent ++
    "|entities:" ++ entity_str ++ "|params:" ++ param_str

/-- `_create_error_response` (the error envelope). -/
def create_error_response : GraphRAGResponse :=
  { answer := "Sorry, I encountered an error processing your query. Please try rephrasing your question or check that you're using valid ETF tickers and company symbols."
    rows := [], intent := "error", cypher := "", entities := [],
    metadata := { cache_hit := false, confidence := 0 } }

/-- The `param_hints` table of `_generate_missing_params_message`. -/
def param_hints (param : String) : String :=
  if param = "ticker" then "Please specify an ETF ticker (SPY, QQQ, IWM, IJH, IVE, IVW)"
  else if param = "ticker1" then "Please specify the first ETF ticker"
  else if param = "ticker2" then "Please specify the second ETF ticker for comparison"
  else if param = "symbol" then "Please specify a company ticker symbol (e.g., AAPL, MSFT, GOOGL)"
  else if param = "sector" then "Please specify a sector name (e.g., Technology, Healthcare, Financials)"
  else if param = "threshold" then "Please specify a percentage threshold (e.g., 5%, 10%)"
  else if param = "top_n" then "Please specify how many top holdings to show"
  else "Please provide " ++ param

/-- `_generate_missing_params_message` (callers supply a non-empty
missing list). -/
def generate_missing_params_message (_intent : String) (missing_params : List String) : String :=
  let hints := missing_params.map param_hints
  match hints with
  | [h] => "To complete your query, I need additional information: " ++ h ++ "."
  | hs =>
    "To complete your query, I need additional information: " ++
      joinSep ", " hs.dropLast ++ ", and " ++ hs.getLastD "" ++ "."

/-- `_create_missing_params_response`.  This helper exists in the source
but is never invoked by `process_query` in its current ("relaxed")
form. -/
def create_missing_params_response (intent_result : IntentResult)
    (entities : List GroundedEntity) (param_result : ParameterFulfillment) :
    GraphRAGResponse :=
  { answer := generate_missing_params_message intent_result.intent
      param_result.missing_parameters
    rows := [], intent := intent_result.intent, cypher := "", entities := entities,
    metadata := { cache_hit := false, confidence := intent_result.confidence } }

/-- The guard of step 5: try the specific template only with complete
parameters, confidence above 0.6 and a non-`general_llm` intent. -/
def useSpecificQuery (param_result : ParameterFulfillment) (intent_result : IntentResult) :
    Bool :=
  param_result.is_complete && intent_result.confidence > 0.6 &&
    intent_result.intent ≠ "general_llm"

/-- The guarded specific-template attempt; an executor failure is caught
and logged (`specific_result` stays `None`). -/
def specific_attempt (graph : GraphOracle) (intent_result : IntentResult)
    (param_result : ParameterFulfillment) : List (String × Params) × Option CypherResult :=
  if useSpecificQuery param_result intent_result then
    let r := executeRun graph intent_result.intent param_result.parameters
    (r.1, match r.2 with | Except.ok res => some res | Except.error _ => none)
  else ([], none)

/-- The comprehensive-data fetch with its long-TTL cache: serve the
cached result when valid, otherwise execute the `comprehensive_data`
template and cache the result. -/
def comprehensive_fetch (graph : GraphOracle) (st : PipelineState) (now : ℚ) :
    List (String × Params) × Except ExecError CypherResult × PipelineState :=
  match get_cached_comprehensive_data st now with
  | some c => ([], Except.ok c, st)
  | none =>
    let r := executeRun graph "comprehensive_data" []
    match r.2 with
    | Except.ok c => (r.1, Except.ok c, cache_comprehensive_data st c now)
    | Except.error e => (r.1, Except.error e, st)

/-- Step 7: response assembly plus response caching. -/
def assemble_response (st3 : PipelineState) (now : ℚ) (query_hash : String)
    (intent_result : IntentResult) (entities : List GroundedEntity)
    (cypher_result : CypherResult) (answer : String) (calls : List (String × Params)) :
    GraphRAGResponse × PipelineState × List (String × Params) :=
  let response : GraphRAGResponse :=
    { answer := answer, rows := cypher_result.rows, intent := intent_result.intent,
      cypher := cypher_result.query, entities := entities,
      metadata := { cache_hit := false, confidence := intent_result.confidence,
                    node_count := cypher_result.node_count,
                    edge_count := cypher_result.edge_count } }
  (response,
   { st3 with response_cache := cache_response st3.response_cache query_hash response now },
   calls)

/-- The comprehensive-fallback arm of step 5 followed by steps 6–7: fetch
the comprehensive data, mark it `is_comprehensive_fallback`, synthesize
with the comprehensive synthesizer; a failing comprehensive `execute`
escapes to the error envelope. -/
def comprehensive_path (env : PipelineEnv) (st2 : PipelineState) (now : ℚ) (query : String)
    (query_hash : String) (intent_result : IntentResult) (entities : List GroundedEntity)
    (specCalls : List (String × Params)) :
    GraphRAGResponse × PipelineState × List (String × Params) :=
  let cf := comprehensive_fetch env.graph st2 now
  match cf.2.1 with
  | Except.error _ => (create_error_response, cf.2.2, specCalls ++ cf.1)
  | Except.ok c =>
    let cypher_result := { c with is_comprehensive_fallback := true }
    let answer := synthesize_with_comprehensive_data env.llm query cypher_result
      intent_result entities
    assemble_response cf.2.2 now query_hash intent_result entities cypher_result answer
      (specCalls ++ cf.1)

/-- `GraphRAGPipeline.process_query` (relaxed mode): preprocess, ground,
classify, fulfil, consult the context-keyed response cache, then either
the specific template (kept only when it returns rows) or the
comprehensive fallback, synthesize accordingly, assemble and cache. -/
def process_query (env : PipelineEnv) (st : PipelineState) (now : ℚ) (query : String) :
    GraphRAGResponse × PipelineState × List (String × Params) :=
  let pre := preprocess query
  let entities := ground_entities env.oracles pre
  let clf := classify env.llm env.md5 st.classification_cache now query entities
  let intent_result := clf.1
  let st1 := { st with classification_cache := clf.2 }
  match fulfill intent_result entities with
  | Except.error _ => (create_error_response, st1, [])
  | Except.ok param_result =>
    let query_hash := env.md5 (cache_input_string query intent_result entities param_result)
    let rc := get_cached_response st1 query_hash now
    let st2 := { st1 with response_cache := rc.2 }
    match rc.1 with
    | some resp => (resp, st2, [])
    | none =>
      let spec := specific_attempt env.graph intent_result param_result
      match spec.2 with
      | some res =>
        if !res.rows.isEmpty then
          let answer := synthesize env.llm query res intent_result
          assemble_response st2 now query_hash intent_result entities res answer spec.1
        else
          comprehensive_path env st2 now query query_hash intent_result entities spec.1
      | none =>
        comprehensive_path env st2 now query query_hash intent_result entities spec.1

/-! ## Concrete scenario environments

Closed oracle instances used to evaluate the pipeline on concrete
requests. -/

/-- Grounding oracles over an empty graph. -/
def emptyOracles : GroundOracles :=
  ⟨fun _ => none, fun _ => none, fun _ => [], fun _ => []⟩

/-- A graph client that answers every query with zero rows. -/
def graphEmptyOk : GraphOracle := fun _ _ => Except.ok []

/-- An unreachable language model. -/
def llmDown : LlmOracle := fun _ => Except.error "connection error"

/-- Grounding oracle that knows the `SPY` ETF node. -/
def oraclesSpy : GroundOracles :=
  ⟨fun t => if t = "SPY" then some [("ticker", Val.vStr "SPY")] else none,
   fun _ => none, fun _ => [], fun _ => []⟩

/-- Environment with empty graph and unreachable LLM (identity stands in
for the MD5 hex digest). -/
def envDown : PipelineEnv := ⟨id, emptyOracles, graphEmptyOk, llmDown⟩

/-- An LLM reply classifying to `top_holdings_subgraph`. -/
def jsonTopHoldings : String :=
  "\x7b\"intent\": \"top_holdings_subgraph\", \"confidence\": 0.9\x7d"

/-- An LLM reply classifying to `etf_overlap_weighted`. -/
def jsonOverlapWeighted : String :=
  "\x7b\"intent\": \"etf_overlap_weighted\", \"confidence\": 0.9\x7d"

/-- An LLM reply classifying to `company_rankings`. -/
def jsonCompanyRankings : String :=
  "\x7b\"intent\": \"company_rankings\", \"confidence\": 0.8\x7d"

/-- Environment whose LLM always answers with the
`top_holdings_subgraph` classification. -/
def envTopJson : PipelineEnv :=
  ⟨id, emptyOracles, graphEmptyOk, fun _ => Except.ok jsonTopHoldings⟩

/-- The empty initial pipeline state. -/
def initialState : PipelineState := {}

/-- A grounded `SPY` ETF entity. -/
def entSPY : GroundedEntity := ⟨"SPY", EntityType.ETF, 1, [("ticker", Val.vStr "SPY")]⟩

/-- A grounded `QQQ` ETF entity. -/
def entQQQ : GroundedEntity := ⟨"QQQ", EntityType.ETF, 1, [("ticker", Val.vStr "QQQ")]⟩

/-- Sector oracles where the token `tech` has both a direct name match
and an alias match for the `Technology` sector. -/
def oraclesTechBoth : GroundOracles :=
  ⟨fun _ => none, fun _ => none,
   fun t => if t = "tech" then [("Technology", [("name", Val.vStr "Technology")])] else [],
   fun t => if t = "tech" then [("Technology", [("name", Val.vStr "Technology")])] else []⟩

/-- Sector oracles where `health` matches directly and `tech` matches
only through an alias. -/
def oraclesMixed : GroundOracles :=
  ⟨fun _ => none, fun _ => none,
   fun t => if t = "health" then [("Healthcare", [("name", Val.vStr "Healthcare")])] else [],
   fun t => if t = "tech" then [("Technology", [("name", Val.vStr "Technology")])] else []⟩

/-- An `IntentResult` for a weighted-overlap request. -/
def irOverlapWeighted : IntentResult :=
  ⟨"etf_overlap_weighted", 0.9, [entSPY, entQQQ], ["ticker1", "ticker2"]⟩

/-- A one-row weighted-overlap result whose only numeric field is keyed
`weight`. -/
def resWeightRow : CypherResult :=
  { query := "q", parameters := [],
    rows := [[("company_name", Val.vStr "Apple"), ("weight", Val.vNum (1 / 2))]] }

/-- A language model that always answers with a fixed digit-free
sentence. -/
def llmNoDigits : LlmOracle :=
  fun _ => Except.ok "The overlap between the two funds is small according to the data."

/-- Does the first row carry a positive numeric field whose key contains
`percent` or `count` — the condition under which `_add_concrete_number`
appends its parenthetical? -/
def rowHasAppendableNumber (row : Row) : Bool :=
  row.any (fun p => isNumericVal p.2 && numOfVal p.2 > 0 &&
    ((strHasSub (String.mk (pyLowerChars p.1.data)) "percent" ||
      strHasSub (String.mk (pyLowerChars p.1.data)) "exposure_percent") ||
     strHasSub (String.mk (pyLowerChars p.1.data)) "count"))

/-- A one-row exposure result with an `exposure_percent` field. -/
def resPercentRow : CypherResult :=
  { query := "q", parameters := [],
    rows := [[("etf_ticker", Val.vStr "SPY"), ("exposure_percent", Val.vNum (617 / 50))]] }

/-- An `IntentResult` for an exposure request. -/
def irExposure : IntentResult :=
  ⟨"etf_exposure_to_company", 0.9, [], ["ticker", "symbol"]⟩

/-- A language model answering a fixed digit-free analysis sentence. -/
def llmProse : LlmOracle :=
  fun _ => Except.ok "The fund allocates heavily to large technology companies."

/-- A grounded Count entity with value 100. -/
def entCount100 : GroundedEntity := ⟨"100", EntityType.COUNT, 1, [("value", Val.vInt 100)]⟩

/-- An `IntentResult` for a top-holdings request. -/
def irTopHoldings : IntentResult :=
  ⟨"top_holdings_subgraph", 0.9, [entCount100], ["ticker", "top_n"]⟩

/-- The fulfilment computed for `irTopHoldings` over `[entCount100]`:
`top_n` is capped to 50 and `ticker` is missing. -/
def pfTop100 : ParameterFulfillment :=
  { parameters := [("top_n", Val.vInt 50)], missing_parameters := ["ticker"],
    is_complete := false }

/-- The overlap query of the jaccard boundary scenario. -/
def queryJaccard : String := "overlap between SPY and QQQ jaccard"

/-- The retained Healthcare entity of the mixed-oracle scenario. -/
def entHealthcare : GroundedEntity :=
  ⟨"Healthcare", EntityType.SECTOR, 0.8, [("name", Val.vStr "Healthcare")]⟩

/-- The retained Technology entity of the mixed-oracle scenario. -/
def entTechnology : GroundedEntity :=
  ⟨"Technology", EntityType.SECTOR, 0.9, [("name", Val.vStr "Technology")]⟩

/-- The pipeline state after one request's classification-cache update
and response-cache expiry sweep. -/
def stepState (st : PipelineState) (cc2 : ClassCache) (qh : String) (now : ℚ) :
    PipelineState :=
  { st with classification_cache := cc2,
            response_cache :=
              (get_cached_response { st with classification_cache := cc2 } qh now).2 }

/-- Environment whose LLM always answers a fixed sentence containing a
number. -/
def envTokyo : PipelineEnv :=
  ⟨id, emptyOracles, graphEmptyOk, fun _ => Except.ok "It is 9 pm in Tokyo."⟩

/-- The classification the Tokyo scenario settles on. -/
def irGeneral : IntentResult := ⟨"general_llm", 0.8, [], []⟩

/-- An empty, complete parameter fulfilment. -/
def pfEmpty : ParameterFulfillment := ⟨[], [], true⟩

/-- The classification the "show top holdings" scenario settles on (the
JSON label is accepted and cached). -/
def irTop : IntentResult := ⟨"top_holdings_subgraph", 0.9, [], ["ticker", "top_n"]⟩

/-- The fulfilment of `irTop` with no entities: the default `top_n`, a
missing `ticker`. -/
def pfTopMissing : ParameterFulfillment := ⟨[("top_n", Val.vInt 10)], ["ticker"], false⟩

/-- The context hash of the "show top holdings" request (identity MD5). -/
def qhTop : String :=
  "query:show top holdings|intent:top_holdings_subgraph|entities:|params:top_n=10"

/-- The comprehensive result of an empty-graph run. -/
def cCompEmpty : CypherResult :=
  ⟨strStrip comprehensive_data_query, [], [], none, none, false⟩

/-! # Lemmas and claim theorems -/

/-- Any call the executor makes to the graph client carries the catalogue
template text of the requested intent, and that template passed all three
security checks. -/
theorem executeRun_calls_sound (graph : GraphOracle) (intent : String) (params : Params)
    {q : String} {ps : Params} (hmem : (q, ps) ∈ (executeRun graph intent params).1) :
    ∃ t, CYPHER_TEMPLATES intent = some t ∧ q = t.query ∧ ps = params ∧
      t.has_limit = true ∧ t.is_read_only = true ∧ dangerousHit t.query = none := by
  unfold executeRun at hmem
  split at hmem
  · simp at hmem
  · next t htm =>
    split at hmem
    · simp at hmem
    · next h1 =>
      split at hmem
      · simp at hmem
      · next h2 =>
        split at hmem
        · simp at hmem
        · next hd =>
          split at hmem
          · next hv =>
            have h1t : t.has_limit = true := by
              cases hhl : t.has_limit with
              | false => exact absurd hhl h1
              | true => rfl
            have h2t : t.is_read_only = true := by
              cases hro : t.is_read_only with
              | false => exact absurd hro h2
              | true => rfl
            split at hmem
            · next e hg =>
              simp only [List.mem_singleton, Prod.mk.injEq] at hmem
              exact ⟨t, htm, hmem.1, hmem.2, h1t, h2t, hd⟩
            · next rows hg =>
              simp only [List.mem_singleton, Prod.mk.injEq] at hmem
              exact ⟨t, htm, hmem.1, hmem.2, h1t, h2t, hd⟩
          · next missing hv => simp at hmem

/-- A template that fails a security check produces a `SecurityError`
with an empty call list. -/
theorem executeRun_violation (graph : GraphOracle) (intent : String) (params : Params)
    (t : CypherTemplate) (htm : CYPHER_TEMPLATES intent = some t)
    (hbad : t.has_limit = false ∨ t.is_read_only = false ∨ (dangerousHit t.query).isSome = true) :
    (executeRun graph intent params).1 = [] ∧
      ∃ msg, (executeRun graph intent params).2 = Except.error (ExecError.securityError msg) := by
  simp only [executeRun, htm]
  by_cases h1 : t.has_limit = false
  · rw [if_pos h1]
    exact ⟨rfl, "Query must have LIMIT clause", rfl⟩
  · rw [if_neg h1]
    by_cases h2 : t.is_read_only = false
    · rw [if_pos h2]
      exact ⟨rfl, "Only read-only queries are allowed", rfl⟩
    · rw [if_neg h2]
      cases hd : dangerousHit t.query with
      | some p =>
        exact ⟨rfl, "Dangerous pattern detected: " ++ p, rfl⟩
      | none =>
        exfalso
        rcases hbad with hb | hb | hb
        · exact h1 hb
        · exact h2 hb
        · rw [hd] at hb; simp at hb

/-- C1.  Every query text the executor hands to the graph client is the
catalogue template of the requested intent and contains a LIMIT clause,
none of the write keywords and none of the denylisted dangerous-procedure
prefixes; a template violating any of these checks raises a
`SecurityError` before any graph call is made. -/
theorem execute_template_security (graph : GraphOracle) (intent : String) (params : Params) :
    (∀ q ps, (q, ps) ∈ (executeRun graph intent params).1 →
      ∃ t, CYPHER_TEMPLATES intent = some t ∧ q = t.query ∧
        t.has_limit = true ∧ t.is_read_only = true ∧ dangerousHit t.query = none) ∧
    (∀ t, CYPHER_TEMPLATES intent = some t →
      t.has_limit = false ∨ t.is_read_only = false ∨ (dangerousHit t.query).isSome = true →
      (executeRun graph intent params).1 = [] ∧
        ∃ msg, (executeRun graph intent params).2 = Except.error (ExecError.securityError msg)) := by
  constructor
  · intro q ps hmem
    obtain ⟨t, htm, hq, _, h1, h2, h3⟩ := executeRun_calls_sound graph intent params hmem
    exact ⟨t, htm, hq, h1, h2, h3⟩
  · intro t htm hbad
    exact executeRun_violation graph intent params t htm hbad

/-- C1 witness: instantiating the security theorem at the
`sector_exposure` template (which passes the checks and reaches the graph
client) and at the `general_llm` template (which fails the LIMIT check
before any graph call). -/
theorem execute_template_security_witness :
    (∃ t, CYPHER_TEMPLATES "sector_exposure" = some t ∧
      sector_exposure_query = t.query ∧ t.has_limit = true ∧ t.is_read_only = true ∧
      dangerousHit t.query = none) ∧
    ((executeRun graphEmptyOk "general_llm" []).1 = [] ∧
      ∃ msg, (executeRun graphEmptyOk "general_llm" []).2 =
        Except.error (ExecError.securityError msg)) := by
  constructor
  · exact (execute_template_security graphEmptyOk "sector_exposure"
      [("ticker", Val.vStr "SPY")]).1 sector_exposure_query [("ticker", Val.vStr "SPY")]
      (by rw [show (executeRun graphEmptyOk "sector_exposure" [("ticker", Val.vStr "SPY")]).1 =
          [(sector_exposure_query, [("ticker", Val.vStr "SPY")])] from rfl]
          exact List.mem_singleton.mpr rfl)
  · exact (execute_template_security graphEmptyOk "general_llm" []).2 general_llm_template
      rfl (Or.inl (by decide))

/-- C10.  Executing the `general_llm` intent always raises the LIMIT
security failure before any graph call (its catalogue query text is
empty), and the coordinator's specific-query guard always rejects the
`general_llm` intent. -/
theorem general_llm_guarded :
    (∀ (graph : GraphOracle) (params : Params),
      executeRun graph "general_llm" params =
        ([], Except.error (ExecError.securityError "Query must have LIMIT clause"))) ∧
    (∀ (pr : ParameterFulfillment) (ir : IntentResult),
      ir.intent = "general_llm" → useSpecificQuery pr ir = false) := by
  constructor
  · intro graph params
    rfl
  · intro pr ir h
    simp [useSpecificQuery, h]

/-- C10 witness: the guard and the executor evaluated at concrete
arguments. -/
theorem general_llm_guarded_witness :
    executeRun graphEmptyOk "general_llm" [("x", Val.vInt 1)] =
      ([], Except.error (ExecError.securityError "Query must have LIMIT clause")) ∧
    useSpecificQuery ⟨[], [], true⟩ ⟨"general_llm", 1, [], []⟩ = false := by
  exact ⟨general_llm_guarded.1 graphEmptyOk [("x", Val.vInt 1)],
         general_llm_guarded.2 ⟨[], [], true⟩ ⟨"general_llm", 1, [], []⟩ rfl⟩


/-- A regex numeral has a non-negative value. -/
theorem ratOfNumeral_nonneg (l : List Char) : 0 ≤ ratOfNumeral l := by
  unfold ratOfNumeral
  dsimp only
  split
  · positivity
  · positivity

/-- C5.  Every percentage match `N%` is stored as exactly `N / 100`
(hence within `1e-9` of it), every stored percentage arises that way, and
every stored threshold is the matched numeral normalised by the
divide-if-greater-than-1 rule, is non-negative, and is at most 1 whenever
the matched numeral is at most 100. -/
theorem percent_threshold_extraction (text : String) :
    (∀ t ∈ pctTokens text.data,
      ratOfNumeral t / 100 ∈ (extract_numbers text).percentages) ∧
    (∀ v ∈ (extract_numbers text).percentages,
      ∃ t ∈ pctTokens text.data, v = ratOfNumeral t / 100 ∧
        |v - ratOfNumeral t / 100| ≤ 1 / 1000000000) ∧
    (∀ v ∈ (extract_numbers text).thresholds,
      ∃ t ∈ thrTokens text.data, v = pyThresholdNormalize (ratOfNumeral t) ∧ 0 ≤ v ∧
        (ratOfNumeral t ≤ 100 → v ≤ 1)) := by
  refine ⟨?_, ?_, ?_⟩
  · intro t ht
    simp only [extract_numbers, List.mem_map]
    exact ⟨t, ht, rfl⟩
  · intro v hv
    simp only [extract_numbers, List.mem_map] at hv
    obtain ⟨t, ht, rfl⟩ := hv
    exact ⟨t, ht, rfl, by simp⟩
  · intro v hv
    simp only [extract_numbers, List.mem_map] at hv
    obtain ⟨t, ht, rfl⟩ := hv
    have hnn := ratOfNumeral_nonneg t
    refine ⟨t, ht, rfl, ?_, ?_⟩
    · unfold pyThresholdNormalize
      split
      · positivity
      · exact hnn
    · intro h100
      unfold pyThresholdNormalize
      split
      · next h1 => linarith
      · next h1 => linarith

/-- C5 witness: on `"at least 20%"` the matched numeral is `20`, the
stored percentage and threshold equal `20 / 100 = 0.2`, and the range
bounds hold. -/
theorem percent_threshold_extraction_witness :
    ratOfNumeral "20".data / 100 ∈ (extract_numbers "at least 20%").percentages ∧
    (∃ t ∈ pctTokens "at least 20%".data,
      ratOfNumeral "20".data / 100 = ratOfNumeral t / 100 ∧
      |ratOfNumeral "20".data / 100 - ratOfNumeral t / 100| ≤ 1 / 1000000000) ∧
    (∃ t ∈ thrTokens "at least 20%".data,
      pyThresholdNormalize (ratOfNumeral "20".data) = pyThresholdNormalize (ratOfNumeral t) ∧
      0 ≤ pyThresholdNormalize (ratOfNumeral "20".data) ∧
      (ratOfNumeral t ≤ 100 → pyThresholdNormalize (ratOfNumeral "20".data) ≤ 1)) ∧
    pyThresholdNormalize (ratOfNumeral "20".data) = 1 / 5 := by
  have hp : (extract_numbers "at least 20%").percentages =
      [ratOfNumeral "20".data / 100] := rfl
  have ht : (extract_numbers "at least 20%").thresholds =
      [pyThresholdNormalize (ratOfNumeral "20".data)] := rfl
  have hmemp : ratOfNumeral "20".data / 100 ∈ (extract_numbers "at least 20%").percentages := by
    rw [hp]; exact List.mem_singleton.mpr rfl
  have hmemt : pyThresholdNormalize (ratOfNumeral "20".data) ∈
      (extract_numbers "at least 20%").thresholds := by
    rw [ht]; exact List.mem_singleton.mpr rfl
  refine ⟨hmemp,
    (percent_threshold_extraction "at least 20%").2.1 _ hmemp,
    (percent_threshold_extraction "at least 20%").2.2 _ hmemt, ?_⟩
  rw [show ratOfNumeral "20".data = 20 from by decide]
  norm_num [pyThresholdNormalize]

/-- C6.  Under the `top_holdings_subgraph` intent, the fulfilled `top_n`
parameter is the extracted Count value capped at 50 when a Count entity
is present and 10 otherwise; in every successful fulfilment it is an
integer not exceeding 50. -/
theorem top_n_capped (intent_result : IntentResult) (entities : List GroundedEntity)
    (pf : ParameterFulfillment)
    (hintent : intent_result.intent = "top_holdings_subgraph")
    (hok : fulfill intent_result entities = Except.ok pf) :
    (∀ v, assocGet pf.parameters "top_n" = some v → ∃ n : ℤ, v = Val.vInt n ∧ n ≤ 50) ∧
    (find_entity_value entities EntityType.COUNT = none →
      assocGet pf.parameters "top_n" = some (Val.vInt 10)) ∧
    (∀ w n, find_entity_value entities EntityType.COUNT = some w →
      pyIntOfVal w = Except.ok n →
      assocGet pf.parameters "top_n" = some (Val.vInt (min n 50))) := by
  unfold fulfill at hok
  rw [hintent] at hok
  cases hC : find_entity_value entities EntityType.COUNT with
  | none =>
    cases hE : find_entity_value entities EntityType.ETF <;>
      · rw [hC, hE] at hok
        simp at hok
        subst hok
        refine ⟨?_, fun _ => by simp [assocGet], ?_⟩
        · intro v hv
          simp [assocGet] at hv
          exact ⟨10, hv.symm, by norm_num⟩
        · intro w n hw
          simp at hw
  | some w0 =>
    cases hE : find_entity_value entities EntityType.ETF <;>
      · rw [hC, hE] at hok
        simp only [] at hok
        cases hI : pyIntOfVal w0 with
        | error e =>
          rw [hI] at hok
          simp at hok
        | ok n0 =>
          rw [hI] at hok
          simp at hok
          subst hok
          refine ⟨?_, by simp, ?_⟩
          · intro v hv
            simp [assocGet] at hv
            exact ⟨min n0 50, hv.symm, min_le_right n0 50⟩
          · intro w n hw hn
            have hww : w0 = w := by simpa using hw
            subst hww
            rw [hI] at hn
            have hnn : n0 = n := by simpa using hn
            subst hnn
            simp [assocGet]

/-- C6 witness: a Count entity valued 100 yields `top_n = min 100 50 = 50`
with the `top_holdings_subgraph` intent. -/
theorem top_n_capped_witness :
    (∀ v, assocGet pfTop100.parameters "top_n" = some v → ∃ n : ℤ, v = Val.vInt n ∧ n ≤ 50) ∧
    (find_entity_value [entCount100] EntityType.COUNT = none →
      assocGet pfTop100.parameters "top_n" = some (Val.vInt 10)) ∧
    (∀ w n, find_entity_value [entCount100] EntityType.COUNT = some w →
      pyIntOfVal w = Except.ok n →
      assocGet pfTop100.parameters "top_n" = some (Val.vInt (min n 50))) ∧
    assocGet pfTop100.parameters "top_n" = some (Val.vInt 50) := by
  have h := top_n_capped irTopHoldings [entCount100] pfTop100 rfl rfl
  refine ⟨h.1, h.2.1, h.2.2, ?_⟩
  have h50 := h.2.2 (Val.vInt 100) 100 rfl rfl
  simpa using h50

/-- C7 counterexample: with two whitelisted ETF tickers grounded and
"jaccard" in the text, an LLM label of `etf_overlap_weighted` passes the
intent-entity predicate (two ETFs suffice) and is returned unchanged, so
the classifier does not return `etf_overlap_jaccard`. -/
theorem jaccard_llm_override_cex :
    strHasSub queryJaccard "jaccard" = true ∧
    typeCount [entSPY, entQQQ] EntityType.ETF = 2 ∧
    (classify (fun _ => Except.ok jsonOverlapWeighted) id [] 0
        queryJaccard [entSPY, entQQQ]).1.intent = "etf_overlap_weighted" ∧
    ¬ (classify (fun _ => Except.ok jsonOverlapWeighted) id [] 0
        queryJaccard [entSPY, entQQQ]).1.intent = "etf_overlap_jaccard" := by
  refine ⟨by decide, by decide, by decide, ?_⟩
  intro h
  rw [show (classify (fun _ => Except.ok jsonOverlapWeighted) id [] 0
      queryJaccard [entSPY, entQQQ]).1.intent = "etf_overlap_weighted" from by decide] at h
  exact absurd h (by decide)

/-- C7 amended.  With exactly two ETF entities, no Company and no Sector
entity, and a query whose lowercased text contains "overlap" or "similar"
and contains "jaccard", the rule-based fallback classifies to
`etf_overlap_jaccard`; the full classifier returns that fallback whenever
the LLM call fails, or the LLM label is unknown or fails the
intent-entity predicate (an accepted label such as `etf_overlap_weighted`
is kept instead). -/
theorem jaccard_fallback_classification (query : String) (entities : List GroundedEntity)
    (hetf : typeCount entities EntityType.ETF = 2)
    (hco : typeCount entities EntityType.COMPANY = 0)
    (hsec : typeCount entities EntityType.SECTOR = 0)
    (hov : strHasSub (String.mk (pyLowerChars query.data)) "overlap" = true ∨
           strHasSub (String.mk (pyLowerChars query.data)) "similar" = true)
    (hjac : strHasSub (String.mk (pyLowerChars query.data)) "jaccard" = true) :
    (fallback_classification query entities).intent = "etf_overlap_jaccard" ∧
    (∀ (md5 : Md5) (cache : ClassCache) (now : ℚ) (e : String),
      (get_cached_classification cache (get_cache_key md5 query entities) now).1 = none →
      (classify (fun _ => Except.error e) md5 cache now query entities).1.intent =
        "etf_overlap_jaccard") ∧
    (∀ (md5 : Md5) (cache : ClassCache) (now : ℚ) (llm : LlmOracle) (resp : String),
      (get_cached_classification cache (get_cache_key md5 query entities) now).1 = none →
      llm (classification_prompt_fmt query (create_entity_summary entities)) =
        Except.ok resp →
      (list_available_intents.any
          (fun i => i = (parse_classification_response resp).1) = false ∨
        validate_intent_entity_match (parse_classification_response resp).1 entities
          query = false) →
      (classify llm md5 cache now query entities).1.intent = "etf_overlap_jaccard") := by
  have hfb : (fallback_classification query entities).intent = "etf_overlap_jaccard" := by
    unfold fallback_classification
    rcases hov with h | h <;>
      simp [hetf, hco, hsec, h, hjac]
  refine ⟨hfb, ?_, ?_⟩
  · intro md5 cache now e hmiss
    unfold classify
    dsimp only
    have hpair : get_cached_classification cache (get_cache_key md5 query entities) now =
        (none, (get_cached_classification cache (get_cache_key md5 query entities) now).2) :=
      Prod.ext hmiss rfl
    rw [hpair]
    exact hfb
  · intro md5 cache now llm resp hmiss hllm hrej
    unfold classify
    dsimp only
    have hpair : get_cached_classification cache (get_cache_key md5 query entities) now =
        (none, (get_cached_classification cache (get_cache_key md5 query entities) now).2) :=
      Prod.ext hmiss rfl
    rw [hpair, hllm]
    rcases hrej with h | h
    · simp only [h]
      exact hfb
    · rcases hknown : list_available_intents.any
          (fun i => i = (parse_classification_response resp).1) with _ | _
      · simp only [hknown]
        exact hfb
      · simp only [hknown, h]
        exact hfb

/-- C7 witness: on `"overlap between SPY and QQQ jaccard"` with grounded
SPY and QQQ, the fallback yields `etf_overlap_jaccard`, and the full
classifier yields it when the LLM label (`company_rankings`) fails the
intent-entity predicate. -/
theorem jaccard_fallback_classification_witness :
    (fallback_classification queryJaccard [entSPY, entQQQ]).intent = "etf_overlap_jaccard" ∧
    (classify (fun _ => Except.ok jsonCompanyRankings) id [] 0 queryJaccard
        [entSPY, entQQQ]).1.intent = "etf_overlap_jaccard" := by
  have h := jaccard_fallback_classification queryJaccard [entSPY, entQQQ]
    (by decide) (by decide) (by decide) (Or.inl (by decide)) (by decide)
  exact ⟨h.1, h.2.2 id [] 0 (fun _ => Except.ok jsonCompanyRankings) jsonCompanyRankings
    rfl rfl (Or.inr (by decide))⟩

/-- C8 counterexample: when the token `tech` produces both a direct match
(confidence 0.8) and an alias match (confidence 0.9) for the sector
`Technology`, the single retained entity is the direct one with
confidence 0.8, not the alias one with 0.9. -/
theorem sector_dedup_alias_cex :
    (sectorDirectPass oraclesTechBoth ["tech"]).map (fun e => e.name) = ["Technology"] ∧
    (sectorAliasPass oraclesTechBoth ["tech"]).map (fun e => e.name) = ["Technology"] ∧
    (ground_sectors oraclesTechBoth ["tech"]).map (fun e => (e.name, e.confidence)) =
      [("Technology", (0.8 : ℚ))] ∧
    (0.8 : ℚ) ≠ 0.9 := by
  refine ⟨by decide, by decide, by decide, by norm_num⟩

/-- Everything the dedup loop keeps was in its input. -/
theorem dedupSectorsAux_subset (seen : List String) (l : List GroundedEntity) :
    ∀ e ∈ dedupSectorsAux seen l, e ∈ l := by
  induction l generalizing seen with
  | nil => intro e he; simp [dedupSectorsAux] at he
  | cons d rest ih =>
    intro e he
    unfold dedupSectorsAux at he
    by_cases hd : d.type = EntityType.SECTOR
    · rw [if_pos hd] at he
      by_cases hs : seen.any (fun n => n = d.name) = true
      · rw [if_pos hs] at he
        exact List.mem_cons_of_mem d (ih seen e he)
      · rw [if_neg hs] at he
        rcases List.mem_cons.mp he with h | h
        · exact h ▸ List.mem_cons_self d rest
        · exact List.mem_cons_of_mem d (ih _ e h)
    · rw [if_neg hd] at he
      rcases List.mem_cons.mp he with h | h
      · exact h ▸ List.mem_cons_self d rest
      · exact List.mem_cons_of_mem d (ih seen e h)

/-- On sector-typed input the dedup loop keeps names it has not seen, and
the kept names are distinct. -/
theorem dedupSectorsAux_nodup (seen : List String) (l : List GroundedEntity)
    (hall : ∀ e ∈ l, e.type = EntityType.SECTOR) :
    (∀ e ∈ dedupSectorsAux seen l, ¬ e.name ∈ seen) ∧
    ((dedupSectorsAux seen l).map (fun e => e.name)).Nodup := by
  induction l generalizing seen with
  | nil => exact ⟨by intro e he; simp [dedupSectorsAux] at he, by simp [dedupSectorsAux]⟩
  | cons d rest ih =>
    have hd : d.type = EntityType.SECTOR := hall d (List.mem_cons_self d rest)
    have hall2 : ∀ e ∈ rest, e.type = EntityType.SECTOR :=
      fun e he => hall e (List.mem_cons_of_mem d he)
    unfold dedupSectorsAux
    rw [if_pos hd]
    by_cases hs : seen.any (fun n => n = d.name) = true
    · rw [if_pos hs]
      exact ih seen hall2
    · rw [if_neg hs]
      have hdn : ¬ d.name ∈ seen := by
        intro hmem
        exact hs (List.any_eq_true.mpr ⟨d.name, hmem, by simp⟩)
      obtain ⟨ih1, ih2⟩ := ih (d.name :: seen) hall2
      refine ⟨?_, ?_⟩
      · intro e he
        rcases List.mem_cons.mp he with h | h
        · exact h ▸ hdn
        · intro hmem
          exact ih1 e h (List.mem_cons_of_mem _ hmem)
      · simp only [List.map_cons, List.nodup_cons]
        refine ⟨?_, ih2⟩
        intro hmem
        obtain ⟨e, he, hne⟩ := List.mem_map.mp hmem
        exact ih1 e he (hne ▸ List.mem_cons_self _ _)

/-- Splitting the dedup loop over a concatenation: a kept entity either
comes from the first segment, or comes from the second and its name names
no first-segment entity. -/
theorem dedupSectorsAux_append (seen : List String) (l1 l2 : List GroundedEntity)
    (hall1 : ∀ e ∈ l1, e.type = EntityType.SECTOR)
    (hall2 : ∀ e ∈ l2, e.type = EntityType.SECTOR) :
    ∀ e ∈ dedupSectorsAux seen (l1 ++ l2),
      e ∈ l1 ∨ (e ∈ l2 ∧ ¬ e.name ∈ l1.map (fun x => x.name)) := by
  induction l1 generalizing seen with
  | nil =>
    intro e he
    simp only [List.nil_append] at he
    exact Or.inr ⟨dedupSectorsAux_subset seen l2 e he, by simp⟩
  | cons d rest ih =>
    have hd : d.type = EntityType.SECTOR := hall1 d (List.mem_cons_self d rest)
    have hrest : ∀ e ∈ rest, e.type = EntityType.SECTOR :=
      fun e he => hall1 e (List.mem_cons_of_mem d he)
    have hallr : ∀ e ∈ rest ++ l2, e.type = EntityType.SECTOR := by
      intro e he
      rcases List.mem_append.mp he with h | h
      · exact hrest e h
      · exact hall2 e h
    intro e he
    rw [List.cons_append] at he
    unfold dedupSectorsAux at he
    rw [if_pos hd] at he
    by_cases hs : seen.any (fun n => n = d.name) = true
    · rw [if_pos hs] at he
      rcases ih seen hrest e he with h | ⟨h2, hn⟩
      · exact Or.inl (List.mem_cons_of_mem d h)
      · refine Or.inr ⟨h2, ?_⟩
        simp only [List.map_cons, List.mem_cons]
        rintro (hne | hne)
        · obtain ⟨hseen, -⟩ := dedupSectorsAux_nodup seen (rest ++ l2) hallr
          apply hseen e he
          rw [hne]
          obtain ⟨n, hn1, hn2⟩ := List.any_eq_true.mp hs
          have : n = d.name := by simpa using hn2
          exact this ▸ hn1
        · exact hn hne
    · rw [if_neg hs] at he
      rcases List.mem_cons.mp he with h | h
      · exact Or.inl (h ▸ List.mem_cons_self d rest)
      · rcases ih (d.name :: seen) hrest e h with h2 | ⟨h2, hn⟩
        · exact Or.inl (List.mem_cons_of_mem d h2)
        · refine Or.inr ⟨h2, ?_⟩
          simp only [List.map_cons, List.mem_cons]
          rintro (hne | hne)
          · obtain ⟨hseen, -⟩ := dedupSectorsAux_nodup (d.name :: seen) (rest ++ l2) hallr
            exact hseen e h (hne ▸ List.mem_cons_self _ _)
          · exact hn hne

/-- Every entity of the direct pass is a sector at confidence 0.8. -/
theorem sectorDirectPass_fields (o : GroundOracles) (tokens : List String) :
    ∀ e ∈ sectorDirectPass o tokens,
      e.type = EntityType.SECTOR ∧ e.confidence = 0.8 := by
  intro e he
  simp only [sectorDirectPass] at he
  obtain ⟨tok, -, hmem⟩ := List.mem_flatMap.mp he
  by_cases hlen : tok.length < 3
  · rw [if_pos hlen] at hmem; simp at hmem
  · rw [if_neg hlen] at hmem
    obtain ⟨r, -, rfl⟩ := List.mem_map.mp hmem
    exact ⟨rfl, rfl⟩

/-- Every entity of the alias pass is a sector at confidence 0.9. -/
theorem sectorAliasPass_fields (o : GroundOracles) (tokens : List String) :
    ∀ e ∈ sectorAliasPass o tokens,
      e.type = EntityType.SECTOR ∧ e.confidence = 0.9 := by
  intro e he
  simp only [sectorAliasPass] at he
  obtain ⟨tok, -, hmem⟩ := List.mem_flatMap.mp he
  by_cases hlen : tok.length < 3
  · rw [if_pos hlen] at hmem; simp at hmem
  · rw [if_neg hlen] at hmem
    obtain ⟨r, -, rfl⟩ := List.mem_map.mp hmem
    exact ⟨rfl, rfl⟩

/-- C8 amended.  Sector grounding deduplicates by name keeping the first
entity seen, and direct matches are emitted before alias matches: the
retained entity for a name with a direct match has confidence 0.8, and
one whose name only arises from the alias pass has confidence 0.9. -/
theorem sector_dedup_first_seen (o : GroundOracles) (tokens : List String) :
    ((ground_sectors o tokens).map (fun e => e.name)).Nodup ∧
    (∀ e ∈ ground_sectors o tokens,
      (e.name ∈ (sectorDirectPass o tokens).map (fun x => x.name) →
        e.confidence = 0.8) ∧
      (¬ e.name ∈ (sectorDirectPass o tokens).map (fun x => x.name) →
        e.confidence = 0.9)) := by
  have hallD := sectorDirectPass_fields o tokens
  have hallA := sectorAliasPass_fields o tokens
  have hallDA : ∀ e ∈ sectorDirectPass o tokens ++ sectorAliasPass o tokens,
      e.type = EntityType.SECTOR := by
    intro e he
    rcases List.mem_append.mp he with h | h
    · exact (hallD e h).1
    · exact (hallA e h).1
  constructor
  · exact (dedupSectorsAux_nodup [] _ hallDA).2
  · intro e he
    rcases dedupSectorsAux_append [] _ _
        (fun x hx => (hallD x hx).1) (fun x hx => (hallA x hx).1) e he with h | ⟨h, hn⟩
    · constructor
      · intro _; exact (hallD e h).2
      · intro hne
        exact absurd (List.mem_map.mpr ⟨e, h, rfl⟩) hne
    · constructor
      · intro hmem; exact absurd hmem hn
      · intro _; exact (hallA e h).2

/-- C8 amended witness: with a direct-only `Healthcare` match and an
alias-only `Technology` match, the names are distinct and the retained
entities have confidence 0.8 and 0.9 respectively. -/
theorem sector_dedup_first_seen_witness :
    ((ground_sectors oraclesMixed ["health", "tech"]).map (fun e => e.name)).Nodup ∧
    entHealthcare.confidence = 0.8 ∧ entTechnology.confidence = 0.9 := by
  have h := sector_dedup_first_seen oraclesMixed ["health", "tech"]
  have hl : ground_sectors oraclesMixed ["health", "tech"] = [entHealthcare, entTechnology] :=
    rfl
  refine ⟨h.1, ?_, ?_⟩
  · exact (h.2 entHealthcare (by rw [hl]; exact List.mem_cons_self _ _)).1 (by decide)
  · exact (h.2 entTechnology
      (by rw [hl]; exact List.mem_cons_of_mem _ (List.mem_cons_self _ _))).2 (by decide)

/-- Two strings with the same character data are equal. -/
theorem strExt {a b : String} (h : a.data = b.data) : a = b := by
  cases a; cases b; exact congrArg String.mk h

/-- Character data of a string concatenation. -/
theorem strData_append (a b : String) : (a ++ b).data = a.data ++ b.data := by
  cases a; cases b; rfl

/-- `digitChar` always yields an ASCII digit. -/
theorem digitChar_isDigit (k : ℕ) : pyIsDigit (digitChar k) = true := by
  have h : k % 10 < 10 := Nat.mod_lt _ (by norm_num)
  unfold digitChar
  rcases (by omega : k % 10 = 0 ∨ k % 10 = 1 ∨ k % 10 = 2 ∨ k % 10 = 3 ∨ k % 10 = 4 ∨
      k % 10 = 5 ∨ k % 10 = 6 ∨ k % 10 = 7 ∨ k % 10 = 8 ∨ k % 10 = 9) with
    h | h | h | h | h | h | h | h | h | h <;> rw [h] <;> decide

/-- Members of the decimal renderer's output are digits or come from the
accumulator. -/
theorem natToCharsAux_mem (fuel n : ℕ) (acc : List Char) :
    ∀ c ∈ natToCharsAux fuel n acc, pyIsDigit c = true ∨ c ∈ acc := by
  induction fuel generalizing n acc with
  | zero => intro c hc; exact Or.inr hc
  | succ fuel ih =>
    intro c hc
    unfold natToCharsAux at hc
    by_cases hn : n < 10
    · rw [if_pos hn] at hc
      rcases List.mem_cons.mp hc with h | h
      · exact Or.inl (h ▸ digitChar_isDigit n)
      · exact Or.inr h
    · rw [if_neg hn] at hc
      rcases ih (n / 10) (digitChar (n % 10) :: acc) c hc with h | h
      · exact Or.inl h
      · rcases List.mem_cons.mp h with h2 | h2
        · exact Or.inl (h2 ▸ digitChar_isDigit (n % 10))
        · exact Or.inr h2

/-- Every character of `natToChars` is a digit. -/
theorem natToChars_digits (n : ℕ) : ∀ c ∈ natToChars n, pyIsDigit c = true := by
  intro c hc
  rcases natToCharsAux_mem (n + 1) n [] c hc with h | h
  · exact h
  · simp at h

/-- The renderer never returns an empty list from a non-empty
accumulator. -/
theorem natToCharsAux_ne_nil (fuel n : ℕ) (acc : List Char) (h : acc ≠ []) :
    natToCharsAux fuel n acc ≠ [] := by
  induction fuel generalizing n acc with
  | zero => exact h
  | succ fuel ih =>
    unfold natToCharsAux
    by_cases hn : n < 10
    · rw [if_pos hn]; exact List.cons_ne_nil _ _
    · rw [if_neg hn]; exact ih (n / 10) _ (List.cons_ne_nil _ _)

/-- `natToChars` is never empty. -/
theorem natToChars_ne_nil (n : ℕ) : natToChars n ≠ [] := by
  unfold natToChars natToCharsAux
  by_cases hn : n < 10
  · rw [if_pos hn]; exact List.cons_ne_nil _ _
  · rw [if_neg hn]; exact natToCharsAux_ne_nil n (n / 10) _ (List.cons_ne_nil _ _)

/-- Every character of a zero-padded decimal rendering is a digit. -/
theorem padZeros_digits (n m : ℕ) :
    ∀ c ∈ padZeros n (natToChars m), pyIsDigit c = true := by
  intro c hc
  rcases List.mem_append.mp hc with h | h
  · rw [List.eq_of_mem_replicate h]; decide
  · exact natToChars_digits m c h

/-- A zero-padded rendering reaches the padding target length. -/
theorem padZeros_length (n : ℕ) (l : List Char) : n ≤ (padZeros n l).length := by
  simp [padZeros]
  omega

/-- A digit is not whitespace. -/
theorem not_space_of_digit (c : Char) (h : pyIsDigit c = true) : pyIsSpace c = false := by
  by_contra h2
  rw [Bool.not_eq_false] at h2
  unfold pyIsSpace at h2
  unfold pyIsDigit at h
  rcases Bool.or_eq_true_iff.mp h2 with h3 | h3
  · rcases Bool.or_eq_true_iff.mp h3 with h4 | h4
    · rcases Bool.or_eq_true_iff.mp h4 with h5 | h5
      · rcases Bool.or_eq_true_iff.mp h5 with h6 | h6
        · rcases Bool.or_eq_true_iff.mp h6 with h7 | h7
          · rw [show c = ' ' from by simpa using h7] at h; exact absurd h (by decide)
          · rw [show c = '\t' from by simpa using h7] at h; exact absurd h (by decide)
        · rw [show c = '\n' from by simpa using h6] at h; exact absurd h (by decide)
      · rw [show c = '\x0d' from by simpa using h5] at h; exact absurd h (by decide)
    · rw [show c = '\x0b' from by simpa using h4] at h; exact absurd h (by decide)
  · rw [show c = '\x0c' from by simpa using h3] at h; exact absurd h (by decide)

/-- Fixed-point formatting always contains a digit. -/
theorem fmtFixed_hasDigit (prec : ℕ) (q : ℚ) : hasDigitStr (fmtFixed prec q) = true := by
  unfold fmtFixed hasDigitStr
  dsimp only
  have hmagne : padZeros (prec + 1) (natToChars (roundHE (q * 10 ^ prec)).natAbs) ≠ [] := by
    unfold padZeros
    intro hcontra
    rcases List.append_eq_nil.mp hcontra with ⟨-, h2⟩
    exact natToChars_ne_nil _ h2
  have hmaglen : prec + 1 ≤
      (padZeros (prec + 1) (natToChars (roundHE (q * 10 ^ prec)).natAbs)).length :=
    padZeros_length _ _
  have hdig := padZeros_digits (prec + 1) (roundHE (q * 10 ^ prec)).natAbs
  by_cases hp : prec = 0
  · rw [if_pos hp]
    apply List.any_eq_true.mpr
    obtain ⟨c, hc⟩ := List.exists_mem_of_ne_nil _ hmagne
    exact ⟨c, List.mem_append.mpr (Or.inr hc), hdig c hc⟩
  · rw [if_neg hp]
    apply List.any_eq_true.mpr
    obtain ⟨m0, mrest, hm⟩ := List.exists_cons_of_ne_nil hmagne
    have hk : 1 ≤ (padZeros (prec + 1) (natToChars (roundHE (q * 10 ^ prec)).natAbs)).length
        - prec := by omega
    obtain ⟨j, hj⟩ := Nat.exists_eq_add_of_le hk
    refine ⟨m0, ?_, hdig m0 (hm ▸ List.mem_cons_self _ _)⟩
    apply List.mem_append.mpr
    apply Or.inl
    apply List.mem_append.mpr
    apply Or.inr
    rw [hj, Nat.add_comm 1 j, hm, List.take_succ_cons]
    exact List.mem_cons_self _ _

/-- Fixed-point formatting contains no whitespace. -/
theorem fmtFixed_no_ws (prec : ℕ) (q : ℚ) :
    ∀ c ∈ (fmtFixed prec q).data, pyIsSpace c = false := by
  unfold fmtFixed
  dsimp only
  have hdig := padZeros_digits (prec + 1) (roundHE (q * 10 ^ prec)).natAbs
  have hsign : ∀ c ∈ (if roundHE (q * 10 ^ prec) < 0 then ['-'] else ([] : List Char)),
      pyIsSpace c = false := by
    intro c hc
    split at hc
    · rw [List.mem_singleton.mp hc]; decide
    · simp at hc
  by_cases hp : prec = 0
  · rw [if_pos hp]
    intro c hc
    rcases List.mem_append.mp hc with h | h
    · exact hsign c h
    · exact not_space_of_digit c (hdig c h)
  · rw [if_neg hp]
    intro c hc
    rcases List.mem_append.mp hc with h | h
    · rcases List.mem_append.mp h with h2 | h2
      · exact hsign c h2
      · exact not_space_of_digit c (hdig c (List.take_subset _ _ h2))
    · rcases List.mem_cons.mp h with h2 | h2
      · rw [h2]; decide
      · exact not_space_of_digit c (hdig c (List.drop_subset _ _ h2))

/-- An integer rendering contains a digit. -/
theorem intToChars_hasDigit (n : ℤ) : ∃ c ∈ intToChars n, pyIsDigit c = true := by
  unfold intToChars
  obtain ⟨c, hc⟩ := List.exists_mem_of_ne_nil _ (natToChars_ne_nil n.natAbs)
  by_cases hn : n < 0
  · rw [if_pos hn]
    exact ⟨c, List.mem_cons_of_mem _ hc, natToChars_digits _ c hc⟩
  · rw [if_neg hn]
    exact ⟨c, hc, natToChars_digits _ c hc⟩

/-- An integer rendering contains no whitespace. -/
theorem intToChars_no_ws (n : ℤ) : ∀ c ∈ intToChars n, pyIsSpace c = false := by
  unfold intToChars
  intro c hc
  by_cases hn : n < 0
  · rw [if_pos hn] at hc
    rcases List.mem_cons.mp hc with h | h
    · rw [h]; decide
    · exact not_space_of_digit c (natToChars_digits _ c h)
  · rw [if_neg hn] at hc
    exact not_space_of_digit c (natToChars_digits _ c hc)

/-- The word splitter's output length does not depend on which non-empty
word prefix is pending. -/
theorem splitWsAux_len_pair (l : List Char) (cur1 cur2 : List Char)
    (h1 : cur1 ≠ []) (h2 : cur2 ≠ []) :
    (splitWsAux cur1 l).length = (splitWsAux cur2 l).length := by
  induction l generalizing cur1 cur2 with
  | nil =>
    have e1 : cur1.isEmpty = false := by cases cur1 <;> simp_all
    have e2 : cur2.isEmpty = false := by cases cur2 <;> simp_all
    simp [splitWsAux, e1, e2]
  | cons c rest ih =>
    have e1 : cur1.isEmpty = false := by cases cur1 <;> simp_all
    have e2 : cur2.isEmpty = false := by cases cur2 <;> simp_all
    by_cases hc : pyIsSpace c = true
    · simp [splitWsAux, hc, e1, e2]
    · simp only [splitWsAux, hc, Bool.false_eq_true, if_false]
      exact ih (c :: cur1) (c :: cur2) (List.cons_ne_nil _ _) (List.cons_ne_nil _ _)

/-- A pending word adds at most one word to the splitter's count. -/
theorem splitWsAux_len_cur_le (l : List Char) (cur : List Char) :
    (splitWsAux cur l).length ≤ (if cur.isEmpty then 0 else 1) + (splitWsAux [] l).length := by
  induction l generalizing cur with
  | nil => cases cur <;> simp [splitWsAux]
  | cons c rest ih =>
    by_cases hc : pyIsSpace c = true
    · cases cur with
      | nil => simp [splitWsAux, hc]
      | cons x xs =>
        simp only [splitWsAux, hc, if_true, List.isEmpty_cons, Bool.false_eq_true, if_false,
          List.length_cons, List.isEmpty_nil]
        have := ih ([] : List Char)
        simp only [List.isEmpty_nil, if_true, Nat.zero_add] at this
        omega
    · cases cur with
      | nil => simp [splitWsAux, hc]
      | cons x xs =>
        simp only [splitWsAux, hc, Bool.false_eq_true, if_false, List.isEmpty_cons]
        have hpair := splitWsAux_len_pair rest (c :: x :: xs) [c]
          (List.cons_ne_nil _ _) (List.cons_ne_nil _ _)
        have hr := ih ([c])
        simp only [List.isEmpty_cons, Bool.false_eq_true, if_false] at hr
        omega

/-- The word count of a concatenation is at most the sum of the word
counts. -/
theorem splitWsAux_append_le (a b : List Char) (cur : List Char) :
    (splitWsAux cur (a ++ b)).length ≤
      (splitWsAux cur a).length + (splitWsAux [] b).length := by
  induction a generalizing cur with
  | nil =>
    have h := splitWsAux_len_cur_le b cur
    cases cur <;> simp_all [splitWsAux]
  | cons c a ih =>
    by_cases hc : pyIsSpace c = true
    · cases cur with
      | nil =>
        simp only [List.cons_append, splitWsAux, hc, if_true, List.isEmpty_nil]
        exact ih ([] : List Char)
      | cons x xs =>
        simp only [List.cons_append, splitWsAux, hc, if_true, List.isEmpty_cons,
          Bool.false_eq_true, if_false, List.length_cons]
        have := ih ([] : List Char)
        simp only [List.append_eq] at this ⊢
        omega
    · simp only [List.cons_append, splitWsAux, hc, Bool.false_eq_true, if_false]
      exact ih (c :: cur)

/-- A whitespace-free tail yields at most one word. -/
theorem splitWsAux_nonws_le_one (l : List Char) (h : ∀ c ∈ l, pyIsSpace c = false)
    (cur : List Char) : (splitWsAux cur l).length ≤ 1 := by
  induction l generalizing cur with
  | nil => cases cur <;> simp [splitWsAux]
  | cons c rest ih =>
    have hc := h c (List.mem_cons_self _ _)
    simp only [splitWsAux, hc, Bool.false_eq_true, if_false]
    exact ih (fun x hx => h x (List.mem_cons_of_mem _ hx)) (c :: cur)

/-- Word-count bound for a string concatenation. -/
theorem wordsCount_append_le (a b : String) :
    wordsCount (a ++ b) ≤ wordsCount a + wordsCount b := by
  unfold wordsCount splitWsChars
  rw [strData_append]
  exact splitWsAux_append_le a.data b.data []

/-- A whitespace-free string has at most one word. -/
theorem wordsCount_nonws_le_one (s : String) (h : ∀ c ∈ s.data, pyIsSpace c = false) :
    wordsCount s ≤ 1 := by
  unfold wordsCount splitWsChars
  exact splitWsAux_nonws_le_one s.data h []

/-- A non-whitespace member survives `dropWhile`. -/
theorem mem_dropWhile_of_not (p : Char → Bool) (l : List Char) (c : Char)
    (hc : c ∈ l) (hp : p c = false) : c ∈ l.dropWhile p := by
  induction l with
  | nil => simp at hc
  | cons a rest ih =>
    by_cases ha : p a = true
    · rw [List.dropWhile_cons_of_pos ha]
      rcases List.mem_cons.mp hc with h | h
      · rw [h] at hp; rw [hp] at ha; simp at ha
      · exact ih h
    · rw [List.dropWhile_cons_of_neg ha]
      exact hc

/-- A non-whitespace member survives `strip`. -/
theorem mem_charsStrip (l : List Char) (c : Char) (hc : c ∈ l)
    (hws : pyIsSpace c = false) : c ∈ charsStrip l := by
  unfold charsStrip
  apply List.mem_reverse.mpr
  apply mem_dropWhile_of_not _ _ _ _ hws
  apply List.mem_reverse.mpr
  exact mem_dropWhile_of_not _ _ _ hc hws

/-- Stripping preserves the presence of a digit. -/
theorem hasDigit_strStrip (s : String) (h : hasDigitStr s = true) :
    hasDigitStr (strStrip s) = true := by
  unfold hasDigitStr at h ⊢
  obtain ⟨c, hc, hd⟩ := List.any_eq_true.mp h
  exact List.any_eq_true.mpr
    ⟨c, mem_charsStrip s.data c hc (not_space_of_digit c hd), hd⟩

/-- A response within the word cap passes `_ensure_word_limit`
unchanged. -/
theorem ensure_word_limit_id (r : String) (m : ℕ) (h : wordsCount r ≤ m) :
    ensure_word_limit r m = r := by
  unfold ensure_word_limit
  dsimp only
  rw [if_pos (show (splitWsChars r.data).length ≤ m from h)]

/-- The repair loop never appends once a number has been added. -/
theorem addNumLoop_true (resp : String) (row : Row) : addNumLoop resp true row = resp := by
  induction row with
  | nil => rfl
  | cons p rest ih =>
    obtain ⟨k, v⟩ := p
    unfold addNumLoop
    simp only [Bool.not_true, Bool.and_false, Bool.false_eq_true, if_false]
    exact ih

/-- When the first row has a positive numeric field keyed `percent` or
`count`, the repair loop appends a short suffix containing a digit. -/
theorem addNumLoop_append (row : Row) (resp : String)
    (h : rowHasAppendableNumber row = true) :
    ∃ s : String, addNumLoop resp false row = resp ++ s ∧
      hasDigitStr s = true ∧ wordsCount s ≤ 3 := by
  induction row generalizing resp with
  | nil => simp [rowHasAppendableNumber] at h
  | cons p rest ih =>
    obtain ⟨k, v⟩ := p
    unfold addNumLoop
    by_cases hnum : (isNumericVal v && decide (numOfVal v > 0) && !false) = true
    · rw [if_pos hnum]
      by_cases hpct : (strHasSub (String.mk (pyLowerChars k.data)) "percent" ||
          strHasSub (String.mk (pyLowerChars k.data)) "exposure_percent") = true
      · rw [if_pos hpct, addNumLoop_true]
        refine ⟨" (" ++ fmtFixed 2 (numOfVal v) ++ "%)", ?_, ?_, ?_⟩
        · apply strExt
          simp [strData_append, List.append_assoc]
        · unfold hasDigitStr
          apply List.any_eq_true.mpr
          obtain ⟨c, hc, hd⟩ := List.any_eq_true.mp (fmtFixed_hasDigit 2 (numOfVal v))
          refine ⟨c, ?_, hd⟩
          rw [strData_append, strData_append]
          exact List.mem_append.mpr (Or.inl (List.mem_append.mpr (Or.inr hc)))
        · have h1 := wordsCount_append_le (" (" ++ fmtFixed 2 (numOfVal v)) "%)"
          have h2 := wordsCount_append_le " (" (fmtFixed 2 (numOfVal v))
          have h3 : wordsCount " (" = 1 := by decide
          have h4 : wordsCount "%)" = 1 := by decide
          have h5 : wordsCount (fmtFixed 2 (numOfVal v)) ≤ 1 :=
            wordsCount_nonws_le_one _ (fmtFixed_no_ws 2 (numOfVal v))
          omega
      · rw [if_neg hpct]
        by_cases hcnt : strHasSub (String.mk (pyLowerChars k.data)) "count" = true
        · rw [if_pos hcnt, addNumLoop_true]
          refine ⟨" (Count: " ++ intToStr (truncOfRat (numOfVal v)) ++ ")", ?_, ?_, ?_⟩
          · apply strExt
            simp [strData_append, List.append_assoc]
          · unfold hasDigitStr
            apply List.any_eq_true.mpr
            obtain ⟨c, hc, hd⟩ := intToChars_hasDigit (truncOfRat (numOfVal v))
            refine ⟨c, ?_, hd⟩
            rw [strData_append, strData_append]
            refine List.mem_append.mpr (Or.inl (List.mem_append.mpr (Or.inr ?_)))
            exact hc
          · have h1 := wordsCount_append_le (" (Count: " ++
              intToStr (truncOfRat (numOfVal v))) ")"
            have h2 := wordsCount_append_le " (Count: " (intToStr (truncOfRat (numOfVal v)))
            have h3 : wordsCount " (Count: " = 1 := by decide
            have h4 : wordsCount ")" = 1 := by decide
            have h5 : wordsCount (intToStr (truncOfRat (numOfVal v))) ≤ 1 :=
              wordsCount_nonws_le_one _ (intToChars_no_ws (truncOfRat (numOfVal v)))
            omega
        · rw [if_neg hcnt]
          apply ih
          simp only [rowHasAppendableNumber, List.any_cons, Bool.or_eq_true] at h
          rcases h with h | h
          · exfalso
            rw [Bool.and_eq_true] at h
            rcases Bool.or_eq_true_iff.mp h.2 with h3 | h3
            · exact hpct h3
            · exact hcnt h3
          · simp only [rowHasAppendableNumber]
            exact h
    · rw [if_neg hnum]
      apply ih
      simp only [rowHasAppendableNumber, List.any_cons, Bool.or_eq_true] at h
      rcases h with h | h
      · exfalso
        rw [Bool.and_eq_true, Bool.and_eq_true] at h
        obtain ⟨⟨ha, hb⟩, -⟩ := h
        exact hnum (by rw [ha, hb]; rfl)
      · simp only [rowHasAppendableNumber]
        exact h

/-- C9 counterexample: a digit-free LLM answer over a non-empty row whose
only positive numeric field is keyed `weight` (neither `percent` nor
`count`) is returned without any digit, for a non-`general_llm` intent. -/
theorem answer_digit_cex :
    resWeightRow.rows.length = 1 ∧
    irOverlapWeighted.intent ≠ "general_llm" ∧
    hasDigitStr (synthesize llmNoDigits "How similar are SPY and QQQ?" resWeightRow
      irOverlapWeighted) = false := by
  refine ⟨rfl, by decide, by decide⟩

/-- C9 amended.  For a non-`general_llm` intent with non-empty rows and a
digit-free LLM text within the word cap, the numeric parenthetical is
appended exactly when the first row has a positive numeric field whose
key contains `percent` or `count`; in that case the returned answer
contains a digit.  (With no such field nothing is appended — see the
counterexample.) -/
theorem answer_digit_append (llm : LlmOracle) (query : String)
    (cypher_result : CypherResult) (intent_result : IntentResult) (R : String)
    (row : Row) (rest : List Row)
    (hrows : cypher_result.rows = row :: rest)
    (hintent : intent_result.intent ≠ "general_llm")
    (hllm : ∀ p, llm p = Except.ok R)
    (hnonum : contains_concrete_number R = false)
    (happend : rowHasAppendableNumber row = true)
    (hwords : wordsCount R ≤ 397) :
    hasDigitStr (synthesize llm query cypher_result intent_result) = true := by
  unfold synthesize
  rw [hrows]
  simp only [List.isEmpty_cons, Bool.false_and, Bool.false_eq_true, if_false]
  rw [hllm (synthesis_prompt_fmt query intent_result.intent
    (create_results_summary (row :: rest) intent_result.intent))]
  dsimp only
  rw [decide_eq_true hintent, hnonum]
  simp only [Bool.not_false, Bool.and_true, if_true]
  unfold add_concrete_number
  dsimp only
  obtain ⟨s, hs, hdig, hw⟩ := addNumLoop_append row R happend
  rw [hs]
  have hcap : wordsCount (R ++ s) ≤ 400 := by
    have := wordsCount_append_le R s
    omega
  rw [ensure_word_limit_id _ _ hcap]
  apply hasDigit_strStrip
  unfold hasDigitStr at hdig ⊢
  obtain ⟨c, hc, hd⟩ := List.any_eq_true.mp hdig
  exact List.any_eq_true.mpr ⟨c, by rw [strData_append]; exact List.mem_append.mpr (Or.inr hc),
    hd⟩

/-- C9 amended witness: a digit-free LLM text over a row with an
`exposure_percent` field of 12.34 yields an answer carrying the appended
percentage. -/
theorem answer_digit_append_witness :
    hasDigitStr (synthesize llmProse "What is the exposure?" resPercentRow irExposure) =
      true ∧
    synthesize llmProse "What is the exposure?" resPercentRow irExposure =
      "The fund allocates heavily to large technology companies. (12.34%)" := by
  constructor
  · exact answer_digit_append llmProse "What is the exposure?" resPercentRow irExposure
      "The fund allocates heavily to large technology companies."
      [("etf_ticker", Val.vStr "SPY"), ("exposure_percent", Val.vNum (617 / 50))] [] rfl
      (by decide) (fun p => rfl) (by decide) (by decide) (by decide)
  · decide

/-- Once preprocessing, grounding, classification and fulfilment are
fixed, a response-cache miss and a skipped, failed or empty specific
query reduce `process_query` to the comprehensive path. -/
theorem process_query_comprehensive (env : PipelineEnv) (st : PipelineState) (now : ℚ)
    (query : String) (ents : List GroundedEntity) (ir : IntentResult) (cc2 : ClassCache)
    (pr : ParameterFulfillment) (qh : String)
    (hents : ground_entities env.oracles (preprocess query) = ents)
    (hclf : classify env.llm env.md5 st.classification_cache now query ents = (ir, cc2))
    (hful : fulfill ir ents = Except.ok pr)
    (hqh : env.md5 (cache_input_string query ir ents pr) = qh)
    (hmiss : (get_cached_response { st with classification_cache := cc2 } qh now).1 = none)
    (hspec : (specific_attempt env.graph ir pr).2 = none ∨
      ∃ res, (specific_attempt env.graph ir pr).2 = some res ∧ res.rows = []) :
    process_query env st now query =
      comprehensive_path env (stepState st cc2 qh now) now query qh ir ents
        (specific_attempt env.graph ir pr).1 := by
  unfold process_query
  dsimp only
  rw [hents, hclf]
  dsimp only
  rw [hful]
  dsimp only
  rw [hqh]
  have hpair : get_cached_response { st with classification_cache := cc2 } qh now =
      (none, (get_cached_response { st with classification_cache := cc2 } qh now).2) :=
    Prod.ext hmiss rfl
  rw [hpair]
  dsimp only
  rcases hspec with h | ⟨res, h, hrows⟩
  · rw [h]
    rfl
  · rw [h]
    dsimp only
    rw [hrows]
    rfl

/-- A valid comprehensive cache is served without a graph call. -/
theorem comprehensive_fetch_cached (graph : GraphOracle) (st : PipelineState) (now : ℚ)
    (c : CypherResult) (h : get_cached_comprehensive_data st now = some c) :
    comprehensive_fetch graph st now = ([], Except.ok c, st) := by
  unfold comprehensive_fetch
  rw [h]

/-- One `comprehensive_data` execution calls the graph exactly once, with
the comprehensive query text and no parameters. -/
theorem executeRun_comprehensive_calls (graph : GraphOracle) :
    (executeRun graph "comprehensive_data" []).1 = [(comprehensive_data_query, [])] := by
  unfold executeRun
  rw [show CYPHER_TEMPLATES "comprehensive_data" = some comprehensive_data_template from rfl]
  dsimp only
  rw [if_neg (by decide), if_neg (by decide)]
  rw [show dangerousHit comprehensive_data_template.query = none from by decide]
  dsimp only
  rw [show comprehensive_data_template.validate_params [] = [] from rfl]
  dsimp only
  cases hg : graph comprehensive_data_template.query [] with
  | error e => rfl
  | ok rows => rfl

/-- The graph calls of a comprehensive fetch: none when the cache is
valid, otherwise exactly the comprehensive query. -/
theorem comprehensive_fetch_calls (graph : GraphOracle) (st : PipelineState) (now : ℚ) :
    (comprehensive_fetch graph st now).1 = [] ∨
      (comprehensive_fetch graph st now).1 = [(comprehensive_data_query, [])] := by
  unfold comprehensive_fetch
  cases hc : get_cached_comprehensive_data st now with
  | some c => exact Or.inl rfl
  | none =>
    dsimp only
    cases hr : (executeRun graph "comprehensive_data" []).2 with
    | error e => exact Or.inr (executeRun_comprehensive_calls graph)
    | ok c => exact Or.inr (executeRun_comprehensive_calls graph)

/-- The request trace of the comprehensive path extends the specific
attempt's calls by the comprehensive fetch's calls. -/
theorem comprehensive_path_trace (env : PipelineEnv) (st2 : PipelineState) (now : ℚ)
    (query query_hash : String) (ir : IntentResult) (ents : List GroundedEntity)
    (specCalls : List (String × Params)) :
    (comprehensive_path env st2 now query query_hash ir ents specCalls).2.2 =
      specCalls ++ (comprehensive_fetch env.graph st2 now).1 := by
  unfold comprehensive_path
  dsimp only
  cases h2 : (comprehensive_fetch env.graph st2 now).2.1 with
  | error e => rfl
  | ok c => rfl

/-- On the comprehensive path the answer is never the empty string when
the LLM constantly returns a numeric, short, non-blank text: a failing
comprehensive fetch yields the (non-empty) error envelope, a successful
one the stripped LLM text. -/
theorem comprehensive_path_answer_nonempty (env : PipelineEnv) (st2 : PipelineState)
    (now : ℚ) (query query_hash : String) (ir : IntentResult)
    (ents : List GroundedEntity) (specCalls : List (String × Params)) (R : String)
    (hllm : ∀ p, env.llm p = Except.ok R)
    (hnum : contains_concrete_number R = true)
    (hwords : wordsCount R ≤ 500)
    (hne : strStrip R ≠ "") :
    (comprehensive_path env st2 now query query_hash ir ents specCalls).1.answer ≠ "" := by
  unfold comprehensive_path
  dsimp only
  cases h2 : (comprehensive_fetch env.graph st2 now).2.1 with
  | error e =>
    dsimp only
    intro hc
    exact absurd hc (by decide)
  | ok c =>
    dsimp only
    show synthesize_with_comprehensive_data env.llm query
      { c with is_comprehensive_fallback := true } ir ents ≠ ""
    unfold synthesize_with_comprehensive_data
    dsimp only
    rw [hllm]
    dsimp only
    rw [hnum]
    rw [if_neg (by decide)]
    rw [ensure_word_limit_id R 500 hwords]
    exact hne

/-- C2 counterexample: the request "what is the time in Tokyo" is
classified `general_llm`, yet the pipeline executes one graph query — the
comprehensive-data fetch — so "no graph query executed" fails. -/
theorem general_llm_graph_call_cex :
    (process_query envDown initialState 0 "what is the time in Tokyo").1.intent =
      "general_llm" ∧
    (process_query envDown initialState 0 "what is the time in Tokyo").2.2 =
      [(comprehensive_data_query, [])] ∧
    (process_query envDown initialState 0 "what is the time in Tokyo").2.2 ≠ [] := by
  refine ⟨rfl, rfl, ?_⟩
  intro h
  have h2 : (process_query envDown initialState 0 "what is the time in Tokyo").2.2 =
      [(comprehensive_data_query, [])] := rfl
  rw [h] at h2
  exact List.cons_ne_nil _ _ h2.symm

/-- C2 (amended): a `general_llm` classification skips the specific
template, but the comprehensive-data fetch is itself a graph query: on a
response-cache miss every graph call of the request is the
`comprehensive_data` query with empty parameters, the trace is empty
exactly when the comprehensive cache is still valid, and the answer is
non-empty whenever the LLM deterministically returns a numeric,
at-most-500-word, non-blank text (a failing fetch yields the non-empty
error envelope). -/
theorem general_llm_comprehensive_only (env : PipelineEnv) (st : PipelineState) (now : ℚ)
    (query : String) (ents : List GroundedEntity) (ir : IntentResult) (cc2 : ClassCache)
    (pr : ParameterFulfillment) (qh : String)
    (hents : ground_entities env.oracles (preprocess query) = ents)
    (hclf : classify env.llm env.md5 st.classification_cache now query ents = (ir, cc2))
    (hful : fulfill ir ents = Except.ok pr)
    (hintent : ir.intent = "general_llm")
    (hqh : env.md5 (cache_input_string query ir ents pr) = qh)
    (hmiss : (get_cached_response { st with classification_cache := cc2 } qh now).1 = none) :
    (∀ q ps, (q, ps) ∈ (process_query env st now query).2.2 →
        q = comprehensive_data_query ∧ ps = []) ∧
    (∀ c, get_cached_comprehensive_data (stepState st cc2 qh now) now = some c →
        (process_query env st now query).2.2 = []) ∧
    (∀ R, (∀ p, env.llm p = Except.ok R) → contains_concrete_number R = true →
        wordsCount R ≤ 500 → strStrip R ≠ "" →
        (process_query env st now query).1.answer ≠ "") := by
  have hspec1 : specific_attempt env.graph ir pr = ([], none) := by
    unfold specific_attempt useSpecificQuery
    rw [hintent]
    simp
  have hc1 : (specific_attempt env.graph ir pr).1 = [] := by rw [hspec1]
  have heq := process_query_comprehensive env st now query ents ir cc2 pr qh hents hclf
    hful hqh hmiss (Or.inl (by rw [hspec1]))
  refine ⟨?_, ?_, ?_⟩
  · intro q ps hmem
    rw [heq, comprehensive_path_trace, hc1, List.nil_append] at hmem
    rcases comprehensive_fetch_calls env.graph (stepState st cc2 qh now) now with h | h
    · rw [h] at hmem
      cases hmem
    · rw [h] at hmem
      have h2 := List.mem_singleton.mp hmem
      exact ⟨congrArg Prod.fst h2, congrArg Prod.snd h2⟩
  · intro c hcached
    rw [heq, comprehensive_path_trace, hc1, List.nil_append,
      comprehensive_fetch_cached env.graph (stepState st cc2 qh now) now c hcached]
  · intro R hllm hnum hwords hne
    rw [heq]
    exact comprehensive_path_answer_nonempty env (stepState st cc2 qh now) now query qh ir
      ents _ R hllm hnum hwords hne

/-- C2 amended, witnessed on the Tokyo scenario: the answer is the LLM's
non-empty sentence and the only graph call is the comprehensive query. -/
theorem general_llm_comprehensive_only_witness :
    (process_query envTokyo initialState 0 "what is the time in Tokyo").1.answer ≠ "" ∧
    (process_query envTokyo initialState 0 "what is the time in Tokyo").2.2 =
      [(comprehensive_data_query, [])] := by
  refine ⟨(general_llm_comprehensive_only envTokyo initialState 0
    "what is the time in Tokyo" [] irGeneral [] pfEmpty
    "query:what is the time in tokyo|intent:general_llm|entities:|params:"
    rfl rfl rfl rfl rfl rfl).2.2 "It is 9 pm in Tokyo."
    (fun p => rfl) (by decide) (by decide) (by decide), rfl⟩

/-- Every list is a prefix of itself extended on the right. -/
theorem charsHasPre_append_self (p y : List Char) : charsHasPre p (p ++ y) = true := by
  induction p with
  | nil => rfl
  | cons a as ih => simp [charsHasPre, ih]

/-- A prefix stays a prefix under right extension. -/
theorem charsHasPre_extend (p : List Char) {b : List Char} (y : List Char)
    (h : charsHasPre p b = true) : charsHasPre p (b ++ y) = true := by
  induction p generalizing b with
  | nil => rfl
  | cons a as ih =>
    cases b with
    | nil => exact Bool.noConfusion h
    | cons c cs =>
      simp [charsHasPre] at h ⊢
      exact ⟨h.1, ih h.2⟩

/-- A prefix occurrence is a substring occurrence. -/
theorem charsHasSub_of_pre (p l : List Char) (h : charsHasPre p l = true) :
    charsHasSub p l = true := by
  cases l with
  | nil =>
    cases p with
    | nil => rfl
    | cons a as => exact Bool.noConfusion h
  | cons c r =>
    show (charsHasPre p (c :: r) || charsHasSub p r) = true
    rw [h, Bool.true_or]

/-- Any middle factor is a substring. -/
theorem charsHasSub_factor (p x y : List Char) :
    charsHasSub p (x ++ (p ++ y)) = true := by
  induction x with
  | nil => exact charsHasSub_of_pre p (p ++ y) (charsHasPre_append_self p y)
  | cons a as ih =>
    show (charsHasPre p (a :: (as ++ (p ++ y))) || charsHasSub p (as ++ (p ++ y))) = true
    rw [ih, Bool.or_true]

/-- Every member of an "A, B, and C" rendering is a factor of the
rendered character list (`d` tracks the irrelevant `getLastD` default). -/
theorem multi_hints_factor : ∀ (bs : List String) (a b s : String),
    s ∈ a :: b :: bs → ∀ (pre mid tail : List Char) (d : String),
    ∃ x y, pre ++ ((joinSep ", " ((a :: b :: bs).dropLast)).data ++
        (mid ++ (((a :: b :: bs).getLastD d).data ++ tail))) = x ++ (s.data ++ y)
  | [], a, b, s, h, pre, mid, tail, d => by
    rcases List.mem_cons.mp h with heq | h2
    · subst heq
      exact ⟨pre, mid ++ (b.data ++ tail), by
        simp [joinSep, List.getLastD, List.dropLast, List.append_assoc]⟩
    · have heq := List.mem_singleton.mp h2
      subst heq
      exact ⟨pre ++ (a.data ++ mid), tail, by
        simp [joinSep, List.getLastD, List.dropLast, List.append_assoc]⟩
  | c :: cs, a, b, s, h, pre, mid, tail, d => by
    rcases List.mem_cons.mp h with heq | h2
    · subst heq
      refine ⟨pre, ", ".data ++ ((joinSep ", " ((b :: c :: cs).dropLast)).data ++
        (mid ++ (((b :: c :: cs).getLastD s).data ++ tail))), ?_⟩
      simp [joinSep, List.getLastD, List.dropLast, strData_append, List.append_assoc]
    · obtain ⟨x, y, hih⟩ :=
        multi_hints_factor cs b c s h2 (pre ++ (a.data ++ ", ".data)) mid tail a
      refine ⟨x, y, ?_⟩
      rw [← hih]
      simp [joinSep, List.getLastD, List.dropLast, strData_append, List.append_assoc]

/-- The missing-parameter message always opens with the fixed phrase. -/
theorem missing_message_starts (intent : String) (missing : List String) :
    strStarts (generate_missing_params_message intent missing)
      "To complete your query, I need additional information" = true := by
  unfold strStarts generate_missing_params_message
  dsimp only
  split
  · rw [strData_append, strData_append]
    exact charsHasPre_extend _ _ (charsHasPre_extend _ _ (by decide))
  · rw [strData_append, strData_append, strData_append, strData_append]
    exact charsHasPre_extend _ _ (charsHasPre_extend _ _ (charsHasPre_extend _ _
      (charsHasPre_extend _ _ (by decide))))

/-- Each missing parameter's hint occurs in the message. -/
theorem missing_message_hints (intent : String) (missing : List String) (p : String)
    (hmem : p ∈ missing) :
    strHasSub (generate_missing_params_message intent missing) (param_hints p) = true := by
  unfold strHasSub generate_missing_params_message
  dsimp only
  have hh : param_hints p ∈ missing.map param_hints := List.mem_map_of_mem param_hints hmem
  split
  · rename_i h1 heq
    rw [heq] at hh
    have he := List.mem_singleton.mp hh
    rw [strData_append, strData_append, ← he, List.append_assoc]
    exact charsHasSub_factor _ _ _
  · rename_i hne
    cases hmap : missing.map param_hints with
    | nil =>
      rw [hmap] at hh
      cases hh
    | cons a rest =>
      cases rest with
      | nil => exact absurd hmap (hne a)
      | cons b bs =>
        rw [hmap] at hh
        rw [strData_append, strData_append, strData_append, strData_append]
        obtain ⟨x, y, hxy⟩ := multi_hints_factor bs a b (param_hints p) hh
          "To complete your query, I need additional information: ".data
          ", and ".data ".".data ""
        simp only [List.append_assoc]
        rw [hxy]
        exact charsHasSub_factor _ _ _

/-- C3 counterexample: "show top holdings" classifies to
`top_holdings_subgraph` and fulfilment leaves `ticker` missing, yet the
returned (non-error) answer does not begin with "To complete your query,
I need additional information" — the relaxed pipeline never emits the
missing-parameter envelope. -/
theorem missing_params_fallback_cex :
    (classify envTopJson.llm envTopJson.md5 initialState.classification_cache 0
        "show top holdings"
        (ground_entities envTopJson.oracles (preprocess "show top holdings"))).1 = irTop ∧
    fulfill irTop (ground_entities envTopJson.oracles (preprocess "show top holdings")) =
      Except.ok pfTopMissing ∧
    pfTopMissing.missing_parameters = ["ticker"] ∧
    strStarts (process_query envTopJson initialState 0 "show top holdings").1.answer
      "To complete your query, I need additional information" = false ∧
    (process_query envTopJson initialState 0 "show top holdings").1.intent =
      "top_holdings_subgraph" :=
  ⟨rfl, rfl, rfl, rfl, rfl⟩

/-- C3 (amended): the missing-parameter envelope
`_create_missing_params_response` does have the specified shape — empty
rows, preserved intent, the "To complete your query, I need additional
information" opening, and a hint for every missing parameter — but the
relaxed `process_query` never returns it: a request whose fulfilment is
incomplete (on a response-cache miss) skips the specific template and
falls through to the comprehensive path, every graph call being the
`comprehensive_data` query. -/
theorem missing_params_envelope_dead (ir0 : IntentResult) (ents0 : List GroundedEntity)
    (pr0 : ParameterFulfillment)
    (env : PipelineEnv) (st : PipelineState) (now : ℚ) (query : String)
    (ents : List GroundedEntity) (ir : IntentResult) (cc2 : ClassCache)
    (pr : ParameterFulfillment) (qh : String)
    (hents : ground_entities env.oracles (preprocess query) = ents)
    (hclf : classify env.llm env.md5 st.classification_cache now query ents = (ir, cc2))
    (hful : fulfill ir ents = Except.ok pr)
    (hincomplete : pr.is_complete = false)
    (hqh : env.md5 (cache_input_string query ir ents pr) = qh)
    (hmiss : (get_cached_response { st with classification_cache := cc2 } qh now).1 = none) :
    ((create_missing_params_response ir0 ents0 pr0).rows = [] ∧
     (create_missing_params_response ir0 ents0 pr0).intent = ir0.intent ∧
     strStarts (create_missing_params_response ir0 ents0 pr0).answer
       "To complete your query, I need additional information" = true ∧
     ∀ p ∈ pr0.missing_parameters,
       strHasSub (create_missing_params_response ir0 ents0 pr0).answer
         (param_hints p) = true) ∧
    (∀ q ps, (q, ps) ∈ (process_query env st now query).2.2 →
        q = comprehensive_data_query ∧ ps = []) := by
  have hspec1 : specific_attempt env.graph ir pr = ([], none) := by
    unfold specific_attempt useSpecificQuery
    rw [hincomplete]
    simp
  have hc1 : (specific_attempt env.graph ir pr).1 = [] := by rw [hspec1]
  have heq := process_query_comprehensive env st now query ents ir cc2 pr qh hents hclf
    hful hqh hmiss (Or.inl (by rw [hspec1]))
  refine ⟨⟨rfl, rfl, missing_message_starts ir0.intent pr0.missing_parameters,
    fun p hp => missing_message_hints ir0.intent pr0.missing_parameters p hp⟩, ?_⟩
  intro q ps hmem
  rw [heq, comprehensive_path_trace, hc1, List.nil_append] at hmem
  rcases comprehensive_fetch_calls env.graph (stepState st cc2 qh now) now with h | h
  · rw [h] at hmem
    cases hmem
  · rw [h] at hmem
    have h2 := List.mem_singleton.mp hmem
    exact ⟨congrArg Prod.fst h2, congrArg Prod.snd h2⟩

/-- C3 amended, witnessed: the envelope shape at the `irTop` /
missing-`ticker` instance, and the "show top holdings" request's single
graph call is the comprehensive query. -/
theorem missing_params_envelope_dead_witness :
    (create_missing_params_response irTop [] pfTopMissing).rows = [] ∧
    strStarts (create_missing_params_response irTop [] pfTopMissing).answer
      "To complete your query, I need additional information" = true ∧
    strHasSub (create_missing_params_response irTop [] pfTopMissing).answer
      (param_hints "ticker") = true ∧
    (process_query envTopJson initialState 0 "show top holdings").2.2 =
      [(comprehensive_data_query, [])] ∧
    comprehensive_data_query = comprehensive_data_query ∧ ([] : Params) = [] := by
  have happ := missing_params_envelope_dead irTop [] pfTopMissing envTopJson initialState 0
    "show top holdings" [] irTop [("show top holdings|", irTop, 0)] pfTopMissing qhTop
    rfl rfl rfl rfl rfl rfl
  exact ⟨happ.1.1, happ.1.2.2.1,
    happ.1.2.2.2 "ticker" (List.mem_singleton.mpr rfl), rfl,
    happ.2 comprehensive_data_query [] (List.mem_singleton.mpr rfl)⟩

/-- C4: when the specific template is skipped, fails, or returns no rows
(on a response-cache miss), the response is built from the
`comprehensive_data` template's output: its rows and query text are the
comprehensive result's, the answer is synthesized from that result marked
`is_comprehensive_fallback := true`, and when the long-TTL comprehensive
cache is valid no comprehensive graph call is made. -/
theorem comprehensive_fallback_marked (env : PipelineEnv) (st : PipelineState) (now : ℚ)
    (query : String) (ents : List GroundedEntity) (ir : IntentResult) (cc2 : ClassCache)
    (pr : ParameterFulfillment) (qh : String) (c : CypherResult)
    (hents : ground_entities env.oracles (preprocess query) = ents)
    (hclf : classify env.llm env.md5 st.classification_cache now query ents = (ir, cc2))
    (hful : fulfill ir ents = Except.ok pr)
    (hqh : env.md5 (cache_input_string query ir ents pr) = qh)
    (hmiss : (get_cached_response { st with classification_cache := cc2 } qh now).1 = none)
    (hspec : (specific_attempt env.graph ir pr).2 = none ∨
      ∃ res, (specific_attempt env.graph ir pr).2 = some res ∧ res.rows = [])
    (hcomp : (comprehensive_fetch env.graph (stepState st cc2 qh now) now).2.1 =
      Except.ok c) :
    (process_query env st now query).1.rows = c.rows ∧
    (process_query env st now query).1.cypher = c.query ∧
    (process_query env st now query).1.answer =
      synthesize_with_comprehensive_data env.llm query
        { c with is_comprehensive_fallback := true } ir ents ∧
    (get_cached_comprehensive_data (stepState st cc2 qh now) now = some c →
      (process_query env st now query).2.2 = (specific_attempt env.graph ir pr).1) := by
  have heq := process_query_comprehensive env st now query ents ir cc2 pr qh hents hclf
    hful hqh hmiss hspec
  have hpath : comprehensive_path env (stepState st cc2 qh now) now query qh ir ents
      (specific_attempt env.graph ir pr).1 =
      assemble_response (comprehensive_fetch env.graph (stepState st cc2 qh now) now).2.2
        now qh ir ents { c with is_comprehensive_fallback := true }
        (synthesize_with_comprehensive_data env.llm query
          { c with is_comprehensive_fallback := true } ir ents)
        ((specific_attempt env.graph ir pr).1 ++
          (comprehensive_fetch env.graph (stepState st cc2 qh now) now).1) := by
    unfold comprehensive_path
    dsimp only
    rw [hcomp]
  refine ⟨?_, ?_, ?_, ?_⟩
  · rw [heq, hpath]
    rfl
  · rw [heq, hpath]
    rfl
  · rw [heq, hpath]
    rfl
  · intro hcached
    rw [heq, comprehensive_path_trace,
      show (comprehensive_fetch env.graph (stepState st cc2 qh now) now).1 = [] from by
        rw [comprehensive_fetch_cached env.graph (stepState st cc2 qh now) now c hcached]]
    exact List.append_nil _

/-- C4, witnessed on the "show top holdings" request over an empty graph:
the skipped specific attempt falls back to the comprehensive result and
the answer is the comprehensive synthesis of that result marked as
fallback. -/
theorem comprehensive_fallback_marked_witness :
    (process_query envTopJson initialState 0 "show top holdings").1.rows =
      cCompEmpty.rows ∧
    (process_query envTopJson initialState 0 "show top holdings").1.answer =
      synthesize_with_comprehensive_data envTopJson.llm "show top holdings"
        { cCompEmpty with is_comprehensive_fallback := true } irTop [] := by
  have happ := comprehensive_fallback_marked envTopJson initialState 0 "show top holdings"
    [] irTop [("show top holdings|", irTop, 0)] pfTopMissing qhTop cCompEmpty
    rfl rfl rfl rfl rfl (Or.inl rfl) rfl
  exact ⟨happ.1, happ.2.2.1⟩
